import Mathlib

/-!
Verification of the client-side engine of the energy-reporting dashboard
(`requests.ts`, `index.ts`, `utils.ts`).

The development shallowly embeds the JavaScript runtime values the code
manipulates (`JSVal`), the numeric coercions the code relies on
(`toNumber`, `jsAdd`, `jsMul`, `jsSub`, `parseInt`, `Number(...)`), and
then translates the validator (`ValidateResponse`), the three data
transformers (`ProcessBids`, `ProcessEnergy`, `ProcessDates`), the date
syntax check (`ValidateDate`), the navigation entry point (`ChangeDate`),
the date resolver of `pageLoad`, and the in-flight counter
(`markLoading` / `markLoaded` / `download`).
-/

set_option autoImplicit false

namespace Dashboard

/-- A runtime JavaScript value, as far as the dashboard code observes it.
`nan` is kept separate from `num` so that NaN contamination is explicit;
JavaScript numbers that arise in this code are modelled as rationals. -/
inductive JSVal where
  | num (q : ℚ)
  | nan
  | str (s : String)
  | bool (b : Bool)
  | null
  | undef
  | arr (xs : List JSVal)
  | obj (fields : List (String × JSVal))

namespace JSVal

/-- The `typeof` operator. `typeof NaN` is `"number"`; `typeof null` is
`"object"`. -/
def typeofStr : JSVal → String
  | num _ => "number"
  | nan => "number"
  | str _ => "string"
  | bool _ => "boolean"
  | null => "object"
  | undef => "undefined"
  | arr _ => "object"
  | obj _ => "object"

/-- `Array.isArray`. -/
def isArray : JSVal → Bool
  | arr _ => true
  | _ => false

/-- Loose equality against `null` (`x == null`), true exactly for `null`
and `undefined`. -/
def looseNull : JSVal → Bool
  | null => true
  | undef => true
  | _ => false

/-- Strict equality against `undefined` (`x === undefined`). -/
def isUndef : JSVal → Bool
  | undef => true
  | _ => false

/-- Strict equality against `null` (`x === null`, `x !== null`). -/
def isNull : JSVal → Bool
  | null => true
  | _ => false

end JSVal

/-! ### Character and string primitives used by the embedded code -/

/-- ASCII whitespace stripped by JavaScript's string-to-number coercion.
(The full runtime also strips some Unicode space characters; the strings
this code coerces are ASCII.) -/
def jsWhitespace (c : Char) : Bool :=
  c = ' ' ∨ c = '\t' ∨ c = '\n' ∨ c = '\r' ∨ c = '\x0b' ∨ c = '\x0c'

/-- Numeric value of a decimal digit character. -/
def digitVal (c : Char) : ℕ := c.toNat - 48

/-- The decimal digit character for `d < 10`. -/
def digitChar (d : ℕ) : Char := Char.ofNat (48 + d)

/-- Big-endian decimal value of a digit list. -/
def decVal (l : List Char) : ℕ :=
  l.foldl (fun a c => a * 10 + digitVal c) 0

/-- Split a character list at every occurrence of `sep`, dropping the
separators; the embedding of JavaScript `String.prototype.split` with a
single-character separator. -/
def splitSepAux (sep : Char) : List Char → List Char → List (List Char)
  | [], cur => [cur.reverse]
  | c :: rest, cur =>
    if c = sep then cur.reverse :: splitSepAux sep rest []
    else splitSepAux sep rest (c :: cur)

def splitSep (sep : Char) (l : List Char) : List (List Char) :=
  splitSepAux sep l []

/-- Trim `jsWhitespace` from both ends. -/
def jsTrim (l : List Char) : List Char :=
  ((l.dropWhile jsWhitespace).reverse.dropWhile jsWhitespace).reverse

/-- Decimal parse of an unsigned literal, with an optional single decimal
point: the fragment of JavaScript's `StringNumericLiteral` grammar that
strings of length at most two can hit (hex/exponent forms need at least
three characters and are not modelled). `none` stands for NaN. -/
def parseDec (l : List Char) : Option ℚ :=
  if l ≠ [] ∧ l.all Char.isDigit then some ((decVal l : ℕ) : ℚ)
  else
    match splitSep '.' l with
    | [d1, d2] =>
      if (d1 ++ d2) ≠ [] ∧ (d1 ++ d2).all Char.isDigit then
        some ((decVal d1 : ℚ) + (decVal d2 : ℚ) / ((10 : ℚ) ^ d2.length))
      else none
    | _ => none

/-- JavaScript string-to-number coercion (unary `+` on a string): trim
whitespace, empty means `0`, then an optionally signed decimal literal;
anything else is NaN (`none`). -/
def jsStringToNumber (l : List Char) : Option ℚ :=
  let t := jsTrim l
  if t = [] then some 0
  else if t.head? = some '+' then parseDec t.tail
  else if t.head? = some '-' then (parseDec t.tail).map (fun q => -q)
  else parseDec t

/-- Whether an unsigned numeric string carries the `0x`/`0X` prefix of a
hexadecimal `parseInt` argument. -/
def hexPrefixed : List Char → Bool
  | c :: c2 :: _ => c = '0' ∧ (c2 = 'x' ∨ c2 = 'X')
  | _ => false

/-- Value of a hexadecimal digit character. -/
def hexDigitVal (c : Char) : ℕ :=
  if c.isDigit then digitVal c
  else if 'a' ≤ c ∧ c ≤ 'f' then c.toNat - 87
  else c.toNat - 55

/-- The unsigned core of `Number.parseInt` (radix unspecified): a
`0x`/`0X` prefix switches to hexadecimal, otherwise the longest leading
run of decimal digits counts; an empty run is NaN (`none`). -/
def parseIntCore (u : List Char) : Option ℕ :=
  if hexPrefixed u then
    let h := (u.drop 2).takeWhile
      (fun c => c.isDigit ∨ ('a' ≤ c ∧ c ≤ 'f') ∨ ('A' ≤ c ∧ c ≤ 'F'))
    if h = [] then none
    else some (h.foldl (fun a c => a * 16 + hexDigitVal c) 0)
  else
    let d := u.takeWhile Char.isDigit
    if d = [] then none else some (decVal d)

/-- JavaScript `Number.parseInt` (radix unspecified): trim leading
whitespace, optional sign, then the unsigned core. -/
def jsParseInt (l : List Char) : Option ℤ :=
  let t := l.dropWhile jsWhitespace
  if t.head? = some '-' then (parseIntCore t.tail).map (fun n => -(n : ℤ))
  else if t.head? = some '+' then (parseIntCore t.tail).map (fun n => (n : ℤ))
  else (parseIntCore t).map (fun n => (n : ℤ))

/-- Decimal rendering of a natural number (`Number.prototype.toString`
for the naturals this code renders). -/
def natChars (n : ℕ) : List Char :=
  if n = 0 then ['0'] else ((Nat.digits 10 n).reverse).map digitChar

/-- `String.prototype.padStart(2, "0")`. -/
def padStart2 (l : List Char) : List Char :=
  if l.length < 2 then List.replicate (2 - l.length) '0' ++ l else l

/-- `String.prototype.slice(a, b)` for `0 ≤ a ≤ b`. -/
def jsSlice (s : String) (a b : ℕ) : String :=
  String.mk ((s.toList.drop a).take (b - a))

namespace JSVal

mutual

/-- `ToString` as this code exercises it: strings render as themselves,
integral numbers in decimal, `null`/`undefined`/booleans by name, arrays
by comma-joining their elements, plain objects as `"[object Object]"`.
Non-integral numbers are rendered as `num/den`, an approximation of the
runtime's shortest-decimal rendering; no claim below evaluates it. -/
def jsToStr : JSVal → String
  | num q =>
    if q.den = 1 then
      if q.num < 0 then String.mk ('-' :: natChars q.num.natAbs)
      else String.mk (natChars q.num.natAbs)
    else String.mk (natChars q.num.natAbs) ++ "/" ++ String.mk (natChars q.den)
  | nan => "NaN"
  | str s => s
  | bool b => if b then "true" else "false"
  | null => "null"
  | undef => "undefined"
  | arr xs => String.intercalate (",") (jsToStrList xs)
  | obj _ => "[object Object]"

def jsToStrList : List JSVal → List String
  | [] => []
  | x :: xs => jsToStr x :: jsToStrList xs

end

/-- `ToNumber`. `none` stands for NaN; `null` coerces to `0`, `undefined`
to NaN, strings through the numeric-literal grammar, and arrays through
their string rendering (modelled directly on the one-element shapes the
rendering produces). -/
def toNumber : JSVal → Option ℚ
  | num q => some q
  | nan => none
  | str s => jsStringToNumber s.toList
  | bool b => some (if b then 1 else 0)
  | null => some 0
  | undef => none
  | arr [] => some 0
  | arr [x] =>
    match x with
    | null => some 0
    | undef => some 0
    | num q => some q
    | str s => jsStringToNumber s.toList
    | _ => none
  | arr (_ :: _ :: _) => none
  | obj _ => none

/-- `ToPrimitive` as far as `+` needs it: arrays and objects become their
string rendering, everything else is already primitive. -/
def toPrimitive : JSVal → JSVal
  | arr xs => str (jsToStr (arr xs))
  | obj fs => str (jsToStr (obj fs))
  | v => v

/-- Whether a primitive is a string (drives `+`'s concatenation branch). -/
def isStr : JSVal → Bool
  | str _ => true
  | _ => false

/-- JavaScript `+`: after `ToPrimitive`, concatenation if either side is
a string, numeric addition (NaN-propagating) otherwise. -/
def jsAdd (a b : JSVal) : JSVal :=
  let pa := toPrimitive a
  let pb := toPrimitive b
  if isStr pa ∨ isStr pb then str (jsToStr pa ++ jsToStr pb)
  else
    match toNumber pa, toNumber pb with
    | some x, some y => num (x + y)
    | _, _ => nan

/-- JavaScript `-`: always numeric. -/
def jsSub (a b : JSVal) : JSVal :=
  match toNumber (toPrimitive a), toNumber (toPrimitive b) with
  | some x, some y => num (x - y)
  | _, _ => nan

/-- JavaScript `*`: always numeric. -/
def jsMul (a b : JSVal) : JSVal :=
  match toNumber (toPrimitive a), toNumber (toPrimitive b) with
  | some x, some y => num (x * y)
  | _, _ => nan

/-- Property access with a string key. Missing keys yield `undefined`;
arrays have no such named properties. (Access on `null`/`undefined`
throws in JavaScript; the embedded code only performs it on values it
has checked to be non-null objects.) -/
def get (v : JSVal) (k : String) : JSVal :=
  match v with
  | obj fields => ((fields.find? (fun f => f.1 = k)).map Prod.snd).getD undef
  | _ => undef

/-- Indexing with a numeric key (`element[3]`): array element, character
of a string, `undefined` past the end or on non-indexable values. -/
def idx (v : JSVal) (i : ℕ) : JSVal :=
  match v with
  | arr xs => xs.getD i undef
  | str s =>
    match s.toList.get? i with
    | some c => str (String.mk [c])
    | none => undef
  | _ => undef

/-- The `for...in` enumeration of own enumerable properties: the fields
of a plain object in insertion order, the index/element pairs of an
array. (String keys that are not array indices are enumerated in
insertion order by the runtime; the association list records exactly
that order.) -/
def entries : JSVal → List (String × JSVal)
  | obj fields => fields
  | arr xs => (xs.enum).map (fun p => (String.mk (natChars p.1), p.2))
  | _ => []

end JSVal

/-! ### `requests.ts` : validator and data transformers -/

/-- The three API response kinds (`APIResponse = keyof ResponseRegistry`). -/
inductive APIResponse where
  | dates
  | energy
  | bids

open JSVal in
/-- `ValidateResponse(obj, type)` from `requests.ts`.

The per-element checks of the `bids` and `energy` `data` arrays run
inside `forEach` callbacks; a `return false` there returns from the
callback only, and the callback's value is discarded, so those checks
cannot affect the function's result and the embedding omits them.  The
`typeof key !== "string"` checks on `for...in` keys are tautologies
(`for...in` keys are always strings) and are likewise constant-true. -/
def ValidateResponse (obj : JSVal) (type : APIResponse) : Bool :=
  if typeofStr obj ≠ "object" then false
  else if obj.looseNull then false
  else
    match type with
    | .bids =>
      if (obj.get ("data")).isUndef then false
      else if ¬ (obj.get ("data")).isArray then false
      else true
    | .dates =>
      (obj.entries).all (fun kv => kv.2.isArray)
    | .energy =>
      if (obj.get ("carbonRate")).isUndef then false
      else if typeofStr (obj.get ("carbonRate")) ≠ "object" ∨ (obj.get ("carbonRate")).looseNull then false
      else if (obj.get ("data")).isUndef then false
      else if ¬ ((obj.get ("carbonRate")).entries).all
          (fun kv => ¬ (typeofStr kv.2 ≠ "number" ∨ kv.2.looseNull)) then false
      else if ¬ (obj.get ("data")).isArray then false
      else true

/-- `MonthNames` from `utils.ts`. -/
def MonthNames : List String :=
  ["January", "February", "March", "April", "May", "June", "July",
   "August", "September", "October", "November", "December"]

/-- One market bid (`Bid`); the positional casts in `ProcessBids` are
runtime no-ops, so each field carries whatever value sat in the row. -/
structure Bid where
  date : JSVal
  hour : JSVal
  type : JSVal
  volume : JSVal
  price : JSVal

/-- `BidData`: the bid list plus the four accumulated scalars. -/
structure BidData where
  bids : List Bid
  profit : JSVal
  volumeSold : JSVal
  volumeBrought : JSVal
  totalVolume : JSVal

open JSVal in
/-- Loose equality of a value against the enum string `BidType.Sell`
(`element[2] == BidType.Sell`): for every non-string operand the
coercions end in a NaN comparison, so this holds exactly for the string
itself. -/
def isSellVal (v : JSVal) : Bool :=
  match v with
  | str s => s = "SELL"
  | _ => false

open JSVal in
/-- Loose equality against `BidType.Buy`. -/
def isBuyVal (v : JSVal) : Bool :=
  match v with
  | str s => s = "BUY"
  | _ => false

open JSVal in
/-- The bid constructed from one row (the five positional extractions). -/
def mkBid (r : JSVal) : Bid :=
  { date := r.idx 0, hour := r.idx 1, type := r.idx 2,
    volume := r.idx 3, price := r.idx 4 }

open JSVal in
/-- `profit += volume * price * (type == BidType.Sell ? 1 : -1)`. -/
def profitStep (a r : JSVal) : JSVal :=
  jsAdd a (jsMul (jsMul (r.idx 3) (r.idx 4))
    (JSVal.num (if isSellVal (r.idx 2) then 1 else -1)))

open JSVal in
/-- `totalVolume += volume`. -/
def totalStep (a r : JSVal) : JSVal := jsAdd a (r.idx 3)

open JSVal in
/-- `volumeSold += volume * (type == BidType.Sell ? 1 : 0)`. -/
def soldStep (a r : JSVal) : JSVal :=
  jsAdd a (jsMul (r.idx 3) (JSVal.num (if isSellVal (r.idx 2) then 1 else 0)))

open JSVal in
/-- `volumeBrought += volume * (type == BidType.Buy ? 1 : 0)`. -/
def broughtStep (a r : JSVal) : JSVal :=
  jsAdd a (jsMul (r.idx 3) (JSVal.num (if isBuyVal (r.idx 2) then 1 else 0)))

open JSVal in
/-- `ProcessBids(data)` from `requests.ts`: one `forEach` pass pushing a
bid per row and updating the four accumulators; rendered as one map per
output array and one left fold per scalar, preserving the row order of
every `+=`. -/
def ProcessBids (rows : List JSVal) : BidData :=
  { bids := rows.map mkBid
  , profit := rows.foldl profitStep (JSVal.num 0)
  , totalVolume := rows.foldl totalStep (JSVal.num 0)
  , volumeSold := rows.foldl soldStep (JSVal.num 0)
  , volumeBrought := rows.foldl broughtStep (JSVal.num 0) }

/-- `EnergyData` (the fields the claims inspect; chart labels keep the
raw pushed values). -/
structure EnergyData where
  times : List JSVal
  predictedBuildingDemand : List JSVal
  predictedSolarGeneration : List JSVal
  predictedWindGeneration : List JSVal
  predictedTotalGeneration : List JSVal
  predictedNetGeneration : List JSVal
  realBuildingDemand : List JSVal
  realSolarGeneration : List JSVal
  realWindGeneration : List JSVal
  realTotalGeneration : List JSVal
  realNetGeneration : List JSVal
  carbonRate : List (String × JSVal)
  predictedCarbonSaved : JSVal
  realCarbonSaved : JSVal

open JSVal in
/-- Lookup on the raw `carbonRate` object (`data.carbonRate[key]`):
`undefined` when the day key is absent. -/
def crGet (cr : List (String × JSVal)) (k : String) : JSVal :=
  ((cr.find? (fun f => f.1 = k)).map Prod.snd).getD JSVal.undef

open JSVal in
/-- The per-row carbon rate of `ProcessEnergy`: `0` unless the row's
element 0 is a string, in which case the first ten characters index the
`carbonRate` mapping with no presence guard. -/
def rowRate (cr : List (String × JSVal)) (r : JSVal) : JSVal :=
  match r.idx 0 with
  | JSVal.str s => crGet cr (jsSlice s 0 10)
  | _ => JSVal.num 0

open JSVal in
/-- `element[2] + element[3]` of a row. -/
def rowPredTotal (r : JSVal) : JSVal := jsAdd (r.idx 2) (r.idx 3)

open JSVal in
/-- `element[2] + element[3] - element[1]` of a row. -/
def rowPredNet (r : JSVal) : JSVal :=
  jsSub (jsAdd (r.idx 2) (r.idx 3)) (r.idx 1)

open JSVal in
/-- The pushed `realTotalGeneration` entry: `null` when element 5 or 6 is
loosely null, else their sum. -/
def rowRealTotal (r : JSVal) : JSVal :=
  if (r.idx 5).looseNull ∨ (r.idx 6).looseNull then JSVal.null
  else jsAdd (r.idx 5) (r.idx 6)

open JSVal in
/-- The pushed `realNetGeneration` entry: `null` when element 5 or 6 is
loosely null, `null` again when element 4 is strictly `null`, else
`element[5] + element[6] - element[4]`. -/
def rowRealNet (r : JSVal) : JSVal :=
  if (r.idx 5).looseNull ∨ (r.idx 6).looseNull then JSVal.null
  else if (r.idx 4).isNull then JSVal.null
  else jsSub (jsAdd (r.idx 5) (r.idx 6)) (r.idx 4)

open JSVal in
/-- Whether a row reaches the `realCO2 +=` statement. -/
def rowRealActive (r : JSVal) : Bool :=
  !((r.idx 5).looseNull || (r.idx 6).looseNull) && !(r.idx 4).isNull

open JSVal in
/-- `predictedCO2 += predictedNet * carbonRate`. -/
def predCO2Step (cr : List (String × JSVal)) (a r : JSVal) : JSVal :=
  jsAdd a (jsMul (rowPredNet r) (rowRate cr r))

open JSVal in
/-- `realCO2 += net * carbonRate`, reached only inside the non-null
real-data branch. -/
def realCO2Step (cr : List (String × JSVal)) (a r : JSVal) : JSVal :=
  if rowRealActive r then
    jsAdd a (jsMul (jsSub (jsAdd (r.idx 5) (r.idx 6)) (r.idx 4)) (rowRate cr r))
  else a

open JSVal in
/-- `ProcessEnergy(data)` from `requests.ts`, over the raw `data` rows
and the raw `carbonRate` fields: one `forEach` pass pushing into eleven
parallel arrays and accumulating the two carbon scalars, rendered as one
map per array and one order-preserving left fold per scalar. -/
def ProcessEnergy (cr : List (String × JSVal)) (rows : List JSVal) : EnergyData :=
  { times := rows.map (fun r => r.idx 0)
  , predictedBuildingDemand := rows.map (fun r => r.idx 1)
  , predictedSolarGeneration := rows.map (fun r => r.idx 2)
  , predictedWindGeneration := rows.map (fun r => r.idx 3)
  , predictedTotalGeneration := rows.map rowPredTotal
  , predictedNetGeneration := rows.map rowPredNet
  , realBuildingDemand := rows.map (fun r => r.idx 4)
  , realSolarGeneration := rows.map (fun r => r.idx 5)
  , realWindGeneration := rows.map (fun r => r.idx 6)
  , realTotalGeneration := rows.map rowRealTotal
  , realNetGeneration := rows.map rowRealNet
  , carbonRate := cr
  , predictedCarbonSaved := rows.foldl (predCO2Step cr) (JSVal.num 0)
  , realCarbonSaved := rows.foldl (realCO2Step cr) (JSVal.num 0) }

/-- `ReportDay`: the synthesized ISO date string and the `parseInt`-ed
day number (`none` models NaN). -/
structure ReportDay where
  date : String
  day : Option ℤ
  deriving DecidableEq

/-- `ReportMonth`. `month`/`year` are `parseInt` results; `name` is the
`MonthNames[month - 1]` lookup, `undefined` out of range. -/
structure ReportMonth where
  days : List ReportDay
  month : Option ℤ
  year : Option ℤ
  date : String
  name : JSVal

open JSVal in
/-- `Number.parseInt` applied to an arbitrary value: the runtime first
coerces the argument to a string. -/
def jsParseIntVal (v : JSVal) : Option ℤ :=
  jsParseInt (jsToStr v).toList

/-- `MonthNames[m - 1]` under a JavaScript number index: a string inside
the table, `undefined` for NaN or out-of-range indices. -/
def monthNameAt (m : Option ℤ) : JSVal :=
  match m with
  | some m =>
    if h : 0 ≤ m - 1 ∧ (m - 1).toNat < MonthNames.length then
      JSVal.str (MonthNames.get ⟨(m - 1).toNat, h.2⟩)
    else JSVal.undef
  | none => JSVal.undef

/-- The `ReportDay` built for one raw day value:
`{date: yearMonth + "-" + day.toString().padStart(2, "0"),
  day: Number.parseInt(day)}`. -/
def mkReportDay (yearMonth : String) (d : JSVal) : ReportDay :=
  { date := yearMonth ++ "-" ++ String.mk (padStart2 (JSVal.jsToStr d).toList)
  , day := jsParseIntVal d }

/-- The `ReportMonth` built for one `yearMonth` key and its day array. -/
def mkReportMonth (yearMonth : String) (days : List JSVal) : ReportMonth :=
  { date := yearMonth
  , days := days.map (mkReportDay yearMonth)
  , month := jsParseInt (((splitSep '-' yearMonth.toList).getD 1 []))
  , year := jsParseInt (((splitSep '-' yearMonth.toList).getD 0 []))
  , name := monthNameAt (jsParseInt (((splitSep '-' yearMonth.toList).getD 1 []))) }

/-- `ProcessDates(data)` from `requests.ts`: a `for...in` pass over the
mapping (whose own-key iteration order for these non-index keys is
insertion order, recorded here by the entry list), pushing one
`ReportMonth` per key. -/
def ProcessDates (data : List (String × List JSVal)) : List ReportMonth :=
  data.map (fun kv => mkReportMonth kv.1 kv.2)

/-! ### `index.ts` : date syntax, navigation, resolver, loading counter -/

/-- `DateType`. -/
inductive DateType where
  | day
  | month
  deriving DecidableEq

/-- `SkeletonState`. -/
inductive SkeletonState where
  | hidden
  | visible
  | error
  deriving DecidableEq

/-- `+s > n` for a coerced string/number (`none` = NaN): NaN comparisons
are false. -/
def jsGTnum (o : Option ℚ) (n : ℚ) : Bool :=
  match o with
  | some q => n < q
  | none => false

/-- `ValidateDate(date)` from `index.ts`: overall length in `[6, 10]`,
two or three `-`-separated parts of lengths `4 / 1..2 (/ 1..2)`, then
`+split[1] > 12` and, with a day part, `+split[2] > 31` reject; a NaN
coercion passes both comparisons. -/
def ValidateDate (date : String) : Bool :=
  let l := date.toList
  if l.length < 6 then false
  else if 10 < l.length then false
  else
    let split := splitSep '-' l
    if ¬ (split.length = 2 ∨ split.length = 3) then false
    else if (split.getD 0 []).length ≠ 4 then false
    else if 2 < (split.getD 1 []).length ∨ (split.getD 1 []).length = 0 then false
    else if split.length = 3 ∧ (2 < (split.getD 2 []).length ∨ (split.getD 2 []).length = 0) then false
    else if jsGTnum (jsStringToNumber (split.getD 1 [])) 12 then false
    else if split.length = 3 ∧ jsGTnum (jsStringToNumber (split.getD 2 [])) 31 then false
    else true

/-- The date shape the specification describes: `YYYY-MM` or
`YYYY-MM-DD`, all parts decimal digits of the fixed widths, month in
`1..12` and day in `1..31`.  This definition follows the specification's
words, for comparison with `ValidateDate`. -/
def specDateShape (date : String) : Bool :=
  match splitSep '-' date.toList with
  | [y, m] =>
    y.length = 4 ∧ y.all Char.isDigit ∧ m.length = 2 ∧ m.all Char.isDigit ∧
      1 ≤ decVal m ∧ decVal m ≤ 12
  | [y, m, d] =>
    y.length = 4 ∧ y.all Char.isDigit ∧ m.length = 2 ∧ m.all Char.isDigit ∧
      1 ≤ decVal m ∧ decVal m ≤ 12 ∧
      d.length = 2 ∧ d.all Char.isDigit ∧ 1 ≤ decVal d ∧ decVal d ≤ 31
  | _ => false

/-- `BidData`/`EnergyData` caches plus the page-level flags mutated by
`ChangeDate` and the two pipelines (`PageDate`, `PageType`,
`HasEnergyData`, `HasBidData`, `flagLoading`, and the per-section
skeleton states for the energy and market sections). -/
structure PageState where
  pageDate : String
  pageType : DateType
  hasEnergyData : Bool
  hasBidData : Bool
  flagLoading : ℤ
  skelEnergy : SkeletonState
  skelMarket : SkeletonState
  energy : Option EnergyData
  bids : Option BidData

/-- `markLoading()`: increments the counter (the DOM side shows the
loading overlay). -/
def markLoadingFlag (f : ℤ) : ℤ := f + 1

/-- `markLoaded()`: decrements the counter; the overlay is removed
exactly when the decremented counter equals `0`. -/
def markLoadedFlag (f : ℤ) : ℤ := f - 1

/-- The gate of `download()`: the export links are clickable only when
the counter is exactly `0`. -/
def downloadAllowed (f : ℤ) : Bool := f = 0

/-- The two per-date fetches `ChangeDate` issues. -/
inductive FetchReq where
  | energy (date : String)
  | bids (date : String)
  deriving DecidableEq

/-- The synchronous prefix of `ChangeDate(date)`: an invalid date logs
and returns with nothing mutated and no fetch issued; otherwise the page
granularity and date are set, the counter is assigned the constant `1`
and then incremented by `markLoading`, and both fetches start. -/
def ChangeDate (date : String) (s : PageState) : PageState × List FetchReq :=
  if ¬ ValidateDate date then (s, [])
  else
    ({ s with
        pageType := if date.length = 7 then DateType.month else DateType.day
        pageDate := date
        flagLoading := markLoadingFlag 1 },
     [FetchReq.energy date, FetchReq.bids date])

/-- How a started fetch pipeline terminates: the fetch itself rejects,
`response.json()` rejects, or a decoded payload arrives. -/
inductive FetchOutcome where
  | transportError
  | parseFailure
  | payload (v : JSVal)

/-- The render-sink invocations a pipeline performs. -/
inductive RenderCall where
  | carbonCard (d : Option EnergyData)
  | profitCard (d : Option BidData)
  | chart (name : String)
  | bidTable

/-- The `Energy.times` relabelling inside the energy success branch:
`slice(11, 16)` per entry in day mode, `slice(0, 16)` in month mode.
(`slice` on a non-string pushed time would throw; the success payloads
considered here carry string timestamps.) -/
def relabelTime (t : DateType) (v : JSVal) : JSVal :=
  match v with
  | JSVal.str s => JSVal.str (if t = DateType.day then jsSlice s 11 16 else jsSlice s 0 16)
  | v => v

open JSVal in
/-- The raw `data` rows of a decoded payload. -/
def payloadRows (v : JSVal) : List JSVal :=
  match v.get ("data") with
  | JSVal.arr xs => xs
  | _ => []

open JSVal in
/-- The raw `carbonRate` fields of a decoded payload. -/
def payloadRate (v : JSVal) : List (String × JSVal) :=
  (v.get ("carbonRate")).entries

/-- The energy pipeline of `ChangeDate` after its fetch settles
(`RequestEnergy(date).then(...).catch(...)` with the inner
validate→transform→render chain and its `catch`/`finally`):

* transport or JSON failure: `HasEnergyData = false`, carbon card
  rendered with `null`, energy skeletons to `Error`, `markLoaded`;
* a payload failing `ValidateResponse`: log and return early — only the
  `finally` handler runs, so just `markLoaded`;
* a valid payload: transform, relabel times, cache, `HasEnergyData =
  true`, charts and carbon card rendered, skeletons `Hidden`,
  `markLoaded`. -/
def energyPipeline (s : PageState) (o : FetchOutcome) : PageState × List RenderCall :=
  match o with
  | .transportError =>
    ({ s with
        hasEnergyData := false
        skelEnergy := SkeletonState.error
        flagLoading := markLoadedFlag s.flagLoading },
     [RenderCall.carbonCard none])
  | .parseFailure =>
    ({ s with
        hasEnergyData := false
        skelEnergy := SkeletonState.error
        flagLoading := markLoadedFlag s.flagLoading },
     [RenderCall.carbonCard none])
  | .payload v =>
    if ¬ ValidateResponse v APIResponse.energy then
      ({ s with flagLoading := markLoadedFlag s.flagLoading }, [])
    else
      let processed := ProcessEnergy (payloadRate v) (payloadRows v)
      let relabelled := { processed with times := processed.times.map (relabelTime s.pageType) }
      ({ s with
          energy := some relabelled
          hasEnergyData := true
          skelEnergy := SkeletonState.hidden
          flagLoading := markLoadedFlag s.flagLoading },
       [RenderCall.chart ("windPower"), RenderCall.chart ("solarPower"),
        RenderCall.chart ("overviewPower"), RenderCall.chart ("netPower"),
        RenderCall.carbonCard (some relabelled)])

/-- The bids pipeline of `ChangeDate` after its fetch settles, with the
same outcome structure as the energy pipeline. -/
def bidsPipeline (s : PageState) (o : FetchOutcome) : PageState × List RenderCall :=
  match o with
  | .transportError =>
    ({ s with
        hasBidData := false
        skelMarket := SkeletonState.error
        flagLoading := markLoadedFlag s.flagLoading },
     [RenderCall.profitCard none])
  | .parseFailure =>
    ({ s with
        hasBidData := false
        skelMarket := SkeletonState.error
        flagLoading := markLoadedFlag s.flagLoading },
     [RenderCall.profitCard none])
  | .payload v =>
    if ¬ ValidateResponse v APIResponse.bids then
      ({ s with flagLoading := markLoadedFlag s.flagLoading }, [])
    else
      let processed := ProcessBids (payloadRows v)
      ({ s with
          bids := some processed
          hasBidData := true
          skelMarket := SkeletonState.hidden
          flagLoading := markLoadedFlag s.flagLoading },
       [RenderCall.chart ("overviewMarket"), RenderCall.profitCard (some processed),
        RenderCall.bidTable])

/-! ### The date resolver inside `pageLoad` -/

/-- `PageDate.split("-")[0] + "-" + PageDate.split("-")[1]`; a missing
part stringifies as `"undefined"`. -/
def ymKey (pageDate : String) : String :=
  let split := splitSep '-' pageDate.toList
  String.mk ((split.get? 0).getD ("undefined".toList)) ++ "-" ++
    String.mk ((split.get? 1).getD ("undefined".toList))

/-- `day.day > latest.day` on two `parseInt` results: a NaN operand makes
the comparison false. -/
def dayGT (a b : Option ℤ) : Bool :=
  match a, b with
  | some x, some y => y < x
  | _, _ => false

/-- The inner day loop of `pageLoad`'s resolver: seed `latest` with the
first day, stop with an exact match on the target date string, otherwise
keep the day with the numerically highest `day` seen so far. -/
def scanDays (pageDate : String) : List ReportDay → Option ReportDay → Option ReportDay × Bool
  | [], latest => (latest, false)
  | d :: rest, latest =>
    let seeded := if latest.isNone then some d else latest
    if d.date = pageDate then (some d, true)
    else
      let next :=
        match seeded with
        | some cur => if dayGT d.day cur.day then some d else some cur
        | none => some d
      scanDays pageDate rest next

/-- The resolver loop of `pageLoad`: find the first month whose `date`
equals the target's year-month key and `break` after it; in month mode
that month is the exact result, in day mode scan its days. -/
def resolveDate (months : List ReportMonth) (pageDate : String) (t : DateType) :
    Option (ReportMonth ⊕ ReportDay) × Bool :=
  match months.find? (fun m => m.date = ymKey pageDate) with
  | none => (none, false)
  | some m =>
    if t = DateType.month then (some (Sum.inl m), true)
    else
      match scanDays pageDate m.days none with
      | (some d, exact) => (some (Sum.inr d), exact)
      | (none, exact) => (none, exact)

/-! ### The in-flight counter across overlapping navigations -/

/-- The loading-counter view of the controller: the counter value and
the number of issued fetch pipelines whose `markLoaded` has not yet
run. -/
structure NavState where
  flag : ℤ
  pending : ℕ
  deriving DecidableEq

/-- Counter-relevant events: a (valid-date) `ChangeDate` call, which
runs `flagLoading = 1; markLoading();` and issues two fetches, and the
settlement of any one outstanding pipeline, which runs `markLoaded`. -/
inductive NavEvent where
  | navStart
  | settle

/-- One event's effect on the counter state. `navStart` overwrites the
counter with `markLoadingFlag 1 = 2` regardless of its current value. -/
def navStep (s : NavState) : NavEvent → NavState
  | NavEvent.navStart => { flag := markLoadingFlag 1, pending := s.pending + 2 }
  | NavEvent.settle => { flag := markLoadedFlag s.flag, pending := s.pending - 1 }

/-- Run a sequence of counter events. -/
def navRun (s : NavState) (es : List NavEvent) : NavState :=
  es.foldl navStep s

/-! ### Basic lemmas about the embedded JavaScript primitives -/

open JSVal

theorem jsAdd_num_num (a b : ℚ) : jsAdd (num a) (num b) = num (a + b) := rfl

theorem jsSub_num_num (a b : ℚ) : jsSub (num a) (num b) = num (a - b) := rfl

theorem jsMul_num_num (a b : ℚ) : jsMul (num a) (num b) = num (a * b) := rfl

theorem jsAdd_num_nan (a : ℚ) : jsAdd (num a) nan = nan := rfl

theorem jsAdd_nan_nan : jsAdd nan nan = nan := rfl

/-- A JavaScript number value: an actual number or NaN.  The carbon
accumulators only ever hold such values. -/
def numOrNan (v : JSVal) : Prop := v = nan ∨ ∃ q, v = num q

theorem numOrNan_num (q : ℚ) : numOrNan (num q) := Or.inr ⟨q, rfl⟩

theorem numOrNan_nan : numOrNan nan := Or.inl rfl

theorem jsMul_numOrNan (a b : JSVal) : numOrNan (jsMul a b) := by
  unfold jsMul
  cases h1 : toNumber (toPrimitive a) <;> cases h2 : toNumber (toPrimitive b) <;>
    simp [numOrNan]

theorem jsMul_undef_right (v : JSVal) : jsMul v undef = nan := by
  unfold jsMul
  cases h1 : toNumber (toPrimitive v) <;> rfl

theorem jsAdd_nan_right {a : JSVal} (h : numOrNan a) : jsAdd a nan = nan := by
  rcases h with h | ⟨q, h⟩ <;> subst h <;> rfl

theorem jsAdd_nan_left {b : JSVal} (h : numOrNan b) : jsAdd nan b = nan := by
  rcases h with h | ⟨q, h⟩ <;> subst h <;> rfl

theorem jsAdd_numOrNan {a b : JSVal} (ha : numOrNan a) (hb : numOrNan b) :
    numOrNan (jsAdd a b) := by
  rcases ha with ha | ⟨p, ha⟩ <;> rcases hb with hb | ⟨q, hb⟩ <;> subst ha <;> subst hb
  · exact numOrNan_nan
  · rw [jsAdd_nan_left (numOrNan_num q)]; exact numOrNan_nan
  · rw [jsAdd_nan_right (numOrNan_num p)]; exact numOrNan_nan
  · rw [jsAdd_num_num]; exact numOrNan_num _

/-! ### Digit and whitespace lemmas -/

theorem not_jsWhitespace_of_isDigit {c : Char} (h : c.isDigit = true) :
    jsWhitespace c = false := by
  simp only [jsWhitespace, decide_eq_false_iff_not, not_or]
  refine ⟨?_, ?_, ?_, ?_, ?_, ?_⟩ <;>
    { intro hc; subst hc; revert h; decide }

theorem dropWhile_jsWhitespace_of_digits {l : List Char}
    (h : l.all Char.isDigit = true) : l.dropWhile jsWhitespace = l := by
  cases l with
  | nil => rfl
  | cons c cs =>
    simp only [List.all_cons, Bool.and_eq_true] at h
    simp [List.dropWhile_cons, not_jsWhitespace_of_isDigit h.1]

theorem jsTrim_of_digits {l : List Char} (h : l.all Char.isDigit = true) :
    jsTrim l = l := by
  unfold jsTrim
  rw [dropWhile_jsWhitespace_of_digits h,
    dropWhile_jsWhitespace_of_digits (by simpa [List.all_reverse] using h),
    List.reverse_reverse]

theorem digit_ne_plus {c : Char} (h : c.isDigit = true) : c ≠ '+' := by
  intro hc; subst hc; revert h; decide

theorem digit_ne_minus {c : Char} (h : c.isDigit = true) : c ≠ '-' := by
  intro hc; subst hc; revert h; decide

theorem digit_ne_sep {c : Char} (h : c.isDigit = true) : c ≠ '-' :=
  digit_ne_minus h

/-- The all-digit branch of `parseDec`. -/
theorem parseDec_digits {l : List Char} (hne : l ≠ [])
    (h : l.all Char.isDigit = true) :
    parseDec l = some ((decVal l : ℕ) : ℚ) := by
  unfold parseDec
  rw [if_pos ⟨hne, h⟩]

/-- A nonempty all-digit string coerces (`+s`) to its decimal value. -/
theorem jsStringToNumber_digits {l : List Char} (hne : l ≠ [])
    (h : l.all Char.isDigit = true) :
    jsStringToNumber l = some ((decVal l : ℕ) : ℚ) := by
  unfold jsStringToNumber
  rw [jsTrim_of_digits h]
  cases l with
  | nil => exact absurd rfl hne
  | cons c cs =>
    simp only [List.all_cons, Bool.and_eq_true] at h
    rw [if_neg (List.cons_ne_nil c cs),
      if_neg (by simpa [List.head?_cons] using digit_ne_plus h.1),
      if_neg (by simpa [List.head?_cons] using digit_ne_minus h.1),
      parseDec_digits (List.cons_ne_nil c cs) (by simp [List.all_cons, h.1, h.2])]

theorem digit_ne_x {c : Char} (h : c.isDigit = true) : c ≠ 'x' := by
  intro hc; subst hc; revert h; decide

theorem digit_ne_X {c : Char} (h : c.isDigit = true) : c ≠ 'X' := by
  intro hc; subst hc; revert h; decide

theorem takeWhile_isDigit_of_digits {l : List Char}
    (h : l.all Char.isDigit = true) : l.takeWhile Char.isDigit = l := by
  induction l with
  | nil => rfl
  | cons c cs ih =>
    simp only [List.all_cons, Bool.and_eq_true] at h
    simp [List.takeWhile_cons, h.1, ih h.2]

theorem hexPrefixed_of_digits {l : List Char}
    (h : l.all Char.isDigit = true) : hexPrefixed l = false := by
  match l with
  | [] => rfl
  | [c] => rfl
  | c :: c2 :: cs =>
    simp only [List.all_cons, Bool.and_eq_true] at h
    simp only [hexPrefixed, decide_eq_false_iff_not]
    rintro ⟨-, hx | hX⟩
    · exact digit_ne_x h.2.1 hx
    · exact digit_ne_X h.2.1 hX

/-- A nonempty all-digit string `parseInt`s to its decimal value. -/
theorem parseIntCore_digits {l : List Char} (hne : l ≠ [])
    (h : l.all Char.isDigit = true) :
    parseIntCore l = some (decVal l) := by
  unfold parseIntCore
  rw [hexPrefixed_of_digits h]
  simp only [Bool.false_eq_true, if_false, takeWhile_isDigit_of_digits h]
  rw [if_neg hne]

/-- A nonempty all-digit string `Number.parseInt`s to its decimal value. -/
theorem jsParseInt_digits {l : List Char} (hne : l ≠ [])
    (h : l.all Char.isDigit = true) :
    jsParseInt l = some ((decVal l : ℕ) : ℤ) := by
  unfold jsParseInt
  rw [dropWhile_jsWhitespace_of_digits h]
  cases l with
  | nil => exact absurd rfl hne
  | cons c cs =>
    simp only [List.all_cons, Bool.and_eq_true] at h
    rw [if_neg (by simpa [List.head?_cons] using digit_ne_minus h.1),
      if_neg (by simpa [List.head?_cons] using digit_ne_plus h.1),
      parseIntCore_digits (List.cons_ne_nil c cs) (by simp [List.all_cons, h.1, h.2])]
    rfl

/-! ### Decimal rendering round-trips -/

theorem isDigit_digitChar {d : ℕ} (h : d < 10) : (digitChar d).isDigit = true := by
  interval_cases d <;> decide

theorem digitVal_digitChar {d : ℕ} (h : d < 10) : digitVal (digitChar d) = d := by
  interval_cases d <;> decide

theorem foldl_decVal_map_digitChar (ds : List ℕ) (hds : ∀ d ∈ ds, d < 10) :
    ∀ a : ℕ, List.foldl (fun a c => a * 10 + digitVal c) a (ds.map digitChar) =
      List.foldl (fun a d => a * 10 + d) a ds := by
  induction ds with
  | nil => intro a; rfl
  | cons d ds ih =>
    intro a
    simp only [List.map_cons, List.foldl_cons,
      digitVal_digitChar (hds d (List.mem_cons_self d ds))]
    exact ih (fun x hx => hds x (List.mem_cons_of_mem d hx)) _

theorem foldl_horner_reverse (ds : List ℕ) :
    List.foldl (fun a d => a * 10 + d) 0 ds.reverse = Nat.ofDigits 10 ds := by
  induction ds with
  | nil => rfl
  | cons d ds ih =>
    rw [List.reverse_cons, List.foldl_append, ih, Nat.ofDigits_cons]
    simp only [List.foldl_cons, List.foldl_nil]
    ring

theorem decVal_natChars (n : ℕ) : decVal (natChars n) = n := by
  unfold natChars
  by_cases h : n = 0
  · subst h; decide
  · rw [if_neg h]
    unfold decVal
    rw [foldl_decVal_map_digitChar _ (fun d hd =>
        Nat.digits_lt_base (by norm_num) (List.mem_reverse.mp hd)),
      foldl_horner_reverse, Nat.ofDigits_digits]

theorem natChars_all_digits (n : ℕ) : (natChars n).all Char.isDigit = true := by
  unfold natChars
  by_cases h : n = 0
  · subst h; decide
  · rw [if_neg h]
    simp only [List.all_eq_true, List.mem_map, List.mem_reverse]
    rintro c ⟨d, hd, rfl⟩
    exact isDigit_digitChar (Nat.digits_lt_base (by norm_num) hd)

theorem natChars_ne_nil (n : ℕ) : natChars n ≠ [] := by
  unfold natChars
  by_cases h : n = 0
  · subst h; decide
  · rw [if_neg h]
    simp only [ne_eq, List.map_eq_nil_iff, List.reverse_eq_nil_iff]
    exact Nat.digits_ne_nil_iff_ne_zero.mpr h

theorem natChars_zero : natChars 0 = ['0'] := rfl

theorem natChars_of_lt_ten {n : ℕ} (h1 : 0 < n) (h2 : n < 10) :
    natChars n = [digitChar n] := by
  unfold natChars
  rw [if_neg (Nat.pos_iff_ne_zero.mp h1)]
  rw [Nat.digits_def' (by norm_num : 1 < 10) h1]
  have : n / 10 = 0 := Nat.div_eq_of_lt h2
  rw [this]
  simp [Nat.mod_eq_of_lt h2]

theorem natChars_of_lt_hundred {n : ℕ} (h1 : 10 ≤ n) (h2 : n < 100) :
    natChars n = [digitChar (n / 10), digitChar (n % 10)] := by
  unfold natChars
  rw [if_neg (by omega)]
  rw [Nat.digits_def' (by norm_num : 1 < 10) (by omega)]
  rw [Nat.digits_def' (by norm_num : 1 < 10) (by omega : 0 < n / 10)]
  have h3 : n / 10 / 10 = 0 := by omega
  have h4 : n / 10 % 10 = n / 10 := Nat.mod_eq_of_lt (by omega)
  rw [h3, h4]
  simp

/-- `Number.parseInt` round-trips the decimal rendering of a natural. -/
theorem jsParseInt_natChars (n : ℕ) : jsParseInt (natChars n) = some (n : ℤ) := by
  rw [jsParseInt_digits (natChars_ne_nil n) (natChars_all_digits n), decVal_natChars]

/-! ### Length of `split` parts -/

theorem splitSepAux_lengths (sep : Char) :
    ∀ (l cur : List Char),
      ((splitSepAux sep l cur).map List.length).sum + (splitSepAux sep l cur).length =
        l.length + cur.length + 1
  | [], cur => by simp [splitSepAux]
  | c :: rest, cur => by
    unfold splitSepAux
    by_cases hc : c = sep
    · rw [if_pos hc]
      have := splitSepAux_lengths sep rest []
      simp only [List.map_cons, List.sum_cons, List.length_cons, List.length_reverse,
        List.length_nil] at *
      omega
    · rw [if_neg hc]
      have := splitSepAux_lengths sep rest (c :: cur)
      simp only [List.length_cons] at *
      omega

theorem splitSep_lengths {sep : Char} {l : List Char} {parts : List (List Char)}
    (h : splitSep sep l = parts) :
    (parts.map List.length).sum + parts.length = l.length + 1 := by
  have := splitSepAux_lengths sep l []
  rw [splitSep] at h
  rw [h] at this
  simpa using this

/-! ### Claim C10: the in-flight counter across overlapping navigations -/

/-- Claim C10: `ChangeDate` assigns the shared in-flight counter the
constant `1` before incrementing it (so a navigation start forces the
counter to `2` regardless of its current value); when a second
navigation overlaps two pending fetches, the counter returns to `0` —
re-enabling `download` — after any two of the four outstanding
completions settle, while two fetches are still in flight, and it goes
negative (`-2`) once the remaining completions settle.  In particular
`flag = 0 → pending = 0` fails on the reachable state after
`[navStart, navStart, settle, settle]`. -/
theorem C10_counter_reset_on_overlap :
    (∀ (f : ℤ) (p : ℕ), navStep ⟨f, p⟩ NavEvent.navStart = ⟨2, p + 2⟩) ∧
    navRun ⟨0, 0⟩ [NavEvent.navStart, NavEvent.navStart,
      NavEvent.settle, NavEvent.settle] = ⟨0, 2⟩ ∧
    downloadAllowed (navRun ⟨0, 0⟩ [NavEvent.navStart, NavEvent.navStart,
      NavEvent.settle, NavEvent.settle]).flag = true ∧
    (navRun ⟨0, 0⟩ [NavEvent.navStart, NavEvent.navStart, NavEvent.settle,
      NavEvent.settle, NavEvent.settle, NavEvent.settle]).flag = -2 ∧
    ¬ ((navRun ⟨0, 0⟩ [NavEvent.navStart, NavEvent.navStart,
          NavEvent.settle, NavEvent.settle]).flag = 0 →
        (navRun ⟨0, 0⟩ [NavEvent.navStart, NavEvent.navStart,
          NavEvent.settle, NavEvent.settle]).pending = 0) := by
  refine ⟨fun f p => rfl, rfl, rfl, rfl, fun h => ?_⟩
  have h2 := h rfl
  simp [navRun, navStep, markLoadingFlag, markLoadedFlag, List.foldl] at h2

/-! ### Claim C2: the element-level validator checks -/

/-- Claim C2 (code behaviour at the failing inputs): `ValidateResponse`
returns `true` for a `bids` payload whose `data` contains a non-array
element, and for an `energy` payload whose `data` rows violate the
stated element typing — the element-level checks sit inside `forEach`
callbacks whose `return false` never reaches the outer function.  The
top-level shape checks (such as `data` not being an array at all) do
return `false`. -/
theorem C2_element_checks_do_not_fail_validation :
    ValidateResponse (JSVal.obj [("data", JSVal.arr [JSVal.str ("x")])])
      APIResponse.bids = true ∧
    ValidateResponse (JSVal.obj [("carbonRate", JSVal.obj []),
      ("data", JSVal.arr [JSVal.arr [JSVal.num 5]])]) APIResponse.energy = true ∧
    ValidateResponse (JSVal.obj [("carbonRate", JSVal.obj [("a", JSVal.num 1)]),
      ("data", JSVal.arr [JSVal.arr [JSVal.num 3, JSVal.str ("bad")]])])
      APIResponse.energy = true ∧
    ValidateResponse (JSVal.obj [("data", JSVal.str ("not-an-array"))])
      APIResponse.bids = false := by
  exact ⟨rfl, rfl, rfl, rfl⟩

/-! ### Claim C1: pipeline behaviour on validation failure -/

/-- Claim C1 is false on the code: a payload that fails
`ValidateResponse` makes the pipeline return early after logging — here
the energy pipeline, starting from a `Visible` section with previously
cached data, leaves `HasEnergyData` at `true`, performs no render-sink
call at all, and leaves the skeleton `Visible`, not `Error`. -/
theorem C1_counterexample :
    ValidateResponse (JSVal.obj []) APIResponse.energy = false ∧
    (energyPipeline ⟨"2021-07-22", DateType.day, true, true, 2,
        SkeletonState.visible, SkeletonState.visible, none, none⟩
      (FetchOutcome.payload (JSVal.obj []))).1.skelEnergy = SkeletonState.visible ∧
    (energyPipeline ⟨"2021-07-22", DateType.day, true, true, 2,
        SkeletonState.visible, SkeletonState.visible, none, none⟩
      (FetchOutcome.payload (JSVal.obj []))).1.hasEnergyData = true ∧
    (energyPipeline ⟨"2021-07-22", DateType.day, true, true, 2,
        SkeletonState.visible, SkeletonState.visible, none, none⟩
      (FetchOutcome.payload (JSVal.obj []))).2 = [] := by
  exact ⟨rfl, rfl, rfl, rfl⟩

/-- Claim C1 (amended): for every payload failing `ValidateResponse`,
each pipeline only logs and returns early — the `finally` handler
decrements the in-flight counter, and everything else
(`HasEnergyData`/`HasBidData`, cached aggregates, summary cards,
skeleton states) is left untouched, with no render-sink invocation; the
`Error` state and the null-aggregate render are produced only by the
transport-failure and JSON-parse-failure paths. -/
theorem C1_validation_failure_only_decrements (s : PageState) (ve vb : JSVal)
    (he : ValidateResponse ve APIResponse.energy = false)
    (hb : ValidateResponse vb APIResponse.bids = false) :
    energyPipeline s (FetchOutcome.payload ve) =
      ({ s with flagLoading := markLoadedFlag s.flagLoading }, []) ∧
    bidsPipeline s (FetchOutcome.payload vb) =
      ({ s with flagLoading := markLoadedFlag s.flagLoading }, []) ∧
    (energyPipeline s FetchOutcome.transportError).1.skelEnergy = SkeletonState.error ∧
    (energyPipeline s FetchOutcome.transportError).1.hasEnergyData = false ∧
    (energyPipeline s FetchOutcome.transportError).2 = [RenderCall.carbonCard none] ∧
    (energyPipeline s FetchOutcome.parseFailure).1.skelEnergy = SkeletonState.error ∧
    (bidsPipeline s FetchOutcome.transportError).1.skelMarket = SkeletonState.error ∧
    (bidsPipeline s FetchOutcome.transportError).2 = [RenderCall.profitCard none] ∧
    (bidsPipeline s FetchOutcome.parseFailure).1.skelMarket = SkeletonState.error := by
  refine ⟨?_, ?_, rfl, rfl, rfl, rfl, rfl, rfl, rfl⟩
  · simp [energyPipeline, he]
  · simp [bidsPipeline, hb]

/-- Witness for the amended claim C1 at a concrete state and concrete
invalid payloads. -/
theorem C1_validation_failure_only_decrements_witness :
    ValidateResponse (JSVal.obj []) APIResponse.energy = false ∧
    ValidateResponse (JSVal.obj [("data", JSVal.num 7)]) APIResponse.bids = false ∧
    (energyPipeline ⟨"2021-08-01", DateType.month, false, false, 2,
        SkeletonState.visible, SkeletonState.visible, none, none⟩
      (FetchOutcome.payload (JSVal.obj [])) =
      ({ pageDate := "2021-08-01", pageType := DateType.month,
         hasEnergyData := false, hasBidData := false,
         flagLoading := markLoadedFlag 2,
         skelEnergy := SkeletonState.visible, skelMarket := SkeletonState.visible,
         energy := none, bids := none }, []) ∧
     bidsPipeline ⟨"2021-08-01", DateType.month, false, false, 2,
        SkeletonState.visible, SkeletonState.visible, none, none⟩
      (FetchOutcome.payload (JSVal.obj [("data", JSVal.num 7)])) =
      ({ pageDate := "2021-08-01", pageType := DateType.month,
         hasEnergyData := false, hasBidData := false,
         flagLoading := markLoadedFlag 2,
         skelEnergy := SkeletonState.visible, skelMarket := SkeletonState.visible,
         energy := none, bids := none }, []) ∧
     (energyPipeline ⟨"2021-08-01", DateType.month, false, false, 2,
        SkeletonState.visible, SkeletonState.visible, none, none⟩
       FetchOutcome.transportError).1.skelEnergy = SkeletonState.error ∧
     (energyPipeline ⟨"2021-08-01", DateType.month, false, false, 2,
        SkeletonState.visible, SkeletonState.visible, none, none⟩
       FetchOutcome.transportError).1.hasEnergyData = false ∧
     (energyPipeline ⟨"2021-08-01", DateType.month, false, false, 2,
        SkeletonState.visible, SkeletonState.visible, none, none⟩
       FetchOutcome.transportError).2 = [RenderCall.carbonCard none] ∧
     (energyPipeline ⟨"2021-08-01", DateType.month, false, false, 2,
        SkeletonState.visible, SkeletonState.visible, none, none⟩
       FetchOutcome.parseFailure).1.skelEnergy = SkeletonState.error ∧
     (bidsPipeline ⟨"2021-08-01", DateType.month, false, false, 2,
        SkeletonState.visible, SkeletonState.visible, none, none⟩
       FetchOutcome.transportError).1.skelMarket = SkeletonState.error ∧
     (bidsPipeline ⟨"2021-08-01", DateType.month, false, false, 2,
        SkeletonState.visible, SkeletonState.visible, none, none⟩
       FetchOutcome.transportError).2 = [RenderCall.profitCard none] ∧
     (bidsPipeline ⟨"2021-08-01", DateType.month, false, false, 2,
        SkeletonState.visible, SkeletonState.visible, none, none⟩
       FetchOutcome.parseFailure).1.skelMarket = SkeletonState.error) :=
  ⟨rfl, rfl,
    C1_validation_failure_only_decrements
      ⟨"2021-08-01", DateType.month, false, false, 2,
        SkeletonState.visible, SkeletonState.visible, none, none⟩
      (JSVal.obj []) (JSVal.obj [("data", JSVal.num 7)]) rfl rfl⟩

/-! ### Claim C6: bid aggregation invariants -/

/-- The volume field of a row, read as a rational (used under the
well-typed-row hypothesis). -/
def rowVolQ (r : JSVal) : ℚ :=
  match r.idx 3 with
  | JSVal.num v => v
  | _ => 0

/-- The price field of a row, read as a rational. -/
def rowPriceQ (r : JSVal) : ℚ :=
  match r.idx 4 with
  | JSVal.num p => p
  | _ => 0

/-- The specification's profit sum: `Σ volume · price · (+1 if Sell else
-1)`. -/
def specProfit (rows : List JSVal) : ℚ :=
  (rows.map (fun r => rowVolQ r * rowPriceQ r *
    (if isSellVal (r.idx 2) then 1 else -1))).sum

/-- The specification's total volume: `Σ volume`. -/
def specVol (rows : List JSVal) : ℚ := (rows.map rowVolQ).sum

/-- The specification's sold volume: `Σ volume · (1 if Sell else 0)`. -/
def specSold (rows : List JSVal) : ℚ :=
  (rows.map (fun r => rowVolQ r * (if isSellVal (r.idx 2) then 1 else 0))).sum

/-- The specification's bought volume: `Σ volume · (1 if Buy else 0)`. -/
def specBrought (rows : List JSVal) : ℚ :=
  (rows.map (fun r => rowVolQ r * (if isBuyVal (r.idx 2) then 1 else 0))).sum

/-- A bid row as the external interface describes it: numeric volume and
price, and a `"SELL"`/`"BUY"` type tag. -/
def bidRowTyped (r : JSVal) : Prop :=
  (∃ v : ℚ, r.idx 3 = JSVal.num v) ∧ (∃ p : ℚ, r.idx 4 = JSVal.num p) ∧
    (r.idx 2 = JSVal.str ("SELL") ∨ r.idx 2 = JSVal.str ("BUY"))

theorem foldl_totalStep {rows : List JSVal}
    (h : ∀ r ∈ rows, ∃ v : ℚ, r.idx 3 = JSVal.num v) :
    ∀ a : ℚ, rows.foldl totalStep (JSVal.num a) = JSVal.num (a + specVol rows) := by
  induction rows with
  | nil => intro a; simp [specVol]
  | cons r rs ih =>
    intro a
    obtain ⟨v, hv⟩ := h r (List.mem_cons_self r rs)
    have step : totalStep (JSVal.num a) r = JSVal.num (a + v) := by
      rw [totalStep, hv, jsAdd_num_num]
    rw [List.foldl_cons, step, ih (fun x hx => h x (List.mem_cons_of_mem r hx))]
    have : specVol (r :: rs) = v + specVol rs := by
      simp [specVol, rowVolQ, hv]
    rw [this]
    ring_nf

theorem foldl_soldStep {rows : List JSVal}
    (h : ∀ r ∈ rows, ∃ v : ℚ, r.idx 3 = JSVal.num v) :
    ∀ a : ℚ, rows.foldl soldStep (JSVal.num a) = JSVal.num (a + specSold rows) := by
  induction rows with
  | nil => intro a; simp [specSold]
  | cons r rs ih =>
    intro a
    obtain ⟨v, hv⟩ := h r (List.mem_cons_self r rs)
    have step : soldStep (JSVal.num a) r =
        JSVal.num (a + v * (if isSellVal (r.idx 2) then 1 else 0)) := by
      rw [soldStep, hv, jsMul_num_num, jsAdd_num_num]
    rw [List.foldl_cons, step, ih (fun x hx => h x (List.mem_cons_of_mem r hx))]
    have : specSold (r :: rs) =
        v * (if isSellVal (r.idx 2) then 1 else 0) + specSold rs := by
      simp [specSold, rowVolQ, hv]
    rw [this]
    ring_nf

theorem foldl_broughtStep {rows : List JSVal}
    (h : ∀ r ∈ rows, ∃ v : ℚ, r.idx 3 = JSVal.num v) :
    ∀ a : ℚ, rows.foldl broughtStep (JSVal.num a) = JSVal.num (a + specBrought rows) := by
  induction rows with
  | nil => intro a; simp [specBrought]
  | cons r rs ih =>
    intro a
    obtain ⟨v, hv⟩ := h r (List.mem_cons_self r rs)
    have step : broughtStep (JSVal.num a) r =
        JSVal.num (a + v * (if isBuyVal (r.idx 2) then 1 else 0)) := by
      rw [broughtStep, hv, jsMul_num_num, jsAdd_num_num]
    rw [List.foldl_cons, step, ih (fun x hx => h x (List.mem_cons_of_mem r hx))]
    have : specBrought (r :: rs) =
        v * (if isBuyVal (r.idx 2) then 1 else 0) + specBrought rs := by
      simp [specBrought, rowVolQ, hv]
    rw [this]
    ring_nf

theorem foldl_profitStep {rows : List JSVal}
    (h : ∀ r ∈ rows, (∃ v : ℚ, r.idx 3 = JSVal.num v) ∧ (∃ p : ℚ, r.idx 4 = JSVal.num p)) :
    ∀ a : ℚ, rows.foldl profitStep (JSVal.num a) = JSVal.num (a + specProfit rows) := by
  induction rows with
  | nil => intro a; simp [specProfit]
  | cons r rs ih =>
    intro a
    obtain ⟨⟨v, hv⟩, ⟨p, hp⟩⟩ := h r (List.mem_cons_self r rs)
    have step : profitStep (JSVal.num a) r =
        JSVal.num (a + v * p * (if isSellVal (r.idx 2) then 1 else -1)) := by
      rw [profitStep, hv, hp, jsMul_num_num, jsMul_num_num, jsAdd_num_num]
    rw [List.foldl_cons, step, ih (fun x hx => h x (List.mem_cons_of_mem r hx))]
    have : specProfit (r :: rs) =
        v * p * (if isSellVal (r.idx 2) then 1 else -1) + specProfit rs := by
      simp [specProfit, rowVolQ, rowPriceQ, hv, hp]
    rw [this]
    ring_nf

theorem sell_not_buy {r : JSVal} (hs : r.idx 2 = JSVal.str ("SELL")) :
    isSellVal (r.idx 2) = true ∧ isBuyVal (r.idx 2) = false := by
  rw [hs]; exact ⟨by decide, by decide⟩

theorem buy_not_sell {r : JSVal} (hb : r.idx 2 = JSVal.str ("BUY")) :
    isSellVal (r.idx 2) = false ∧ isBuyVal (r.idx 2) = true := by
  rw [hb]; exact ⟨by decide, by decide⟩

theorem specVol_split {rows : List JSVal}
    (h : ∀ r ∈ rows, r.idx 2 = JSVal.str ("SELL") ∨ r.idx 2 = JSVal.str ("BUY")) :
    specVol rows = specSold rows + specBrought rows := by
  induction rows with
  | nil => simp [specVol, specSold, specBrought]
  | cons r rs ih =>
    have hr := h r (List.mem_cons_self r rs)
    have ihr := ih (fun x hx => h x (List.mem_cons_of_mem r hx))
    simp only [specVol, specSold, specBrought, List.map_cons, List.sum_cons] at *
    rcases hr with hs | hb
    · obtain ⟨h1, h2⟩ := sell_not_buy hs
      rw [h1, h2] at *
      simp only [if_true, Bool.false_eq_true, if_false] at *
      rw [ihr]; ring
    · obtain ⟨h1, h2⟩ := buy_not_sell hb
      rw [h1, h2] at *
      simp only [if_true, Bool.false_eq_true, if_false] at *
      rw [ihr]; ring

/-- Claim C6: under the documented row typing (numeric volume and price,
`"SELL"`/`"BUY"` tag), `ProcessBids` preserves the input row order in
its bid list, its scalars are genuine numbers with `totalVolume =
volumeSold + volumeBrought`, and `profit = Σ volume · price · (+1 if
Sell else -1)`. -/
theorem C6_bid_invariants (rows : List JSVal)
    (h : ∀ r ∈ rows, bidRowTyped r) :
    (ProcessBids rows).bids = rows.map mkBid ∧
    (ProcessBids rows).totalVolume = JSVal.num (specVol rows) ∧
    (ProcessBids rows).volumeSold = JSVal.num (specSold rows) ∧
    (ProcessBids rows).volumeBrought = JSVal.num (specBrought rows) ∧
    (ProcessBids rows).profit = JSVal.num (specProfit rows) ∧
    specVol rows = specSold rows + specBrought rows := by
  refine ⟨rfl, ?_, ?_, ?_, ?_, ?_⟩
  · simpa using foldl_totalStep (fun r hr => (h r hr).1) 0
  · simpa using foldl_soldStep (fun r hr => (h r hr).1) 0
  · simpa using foldl_broughtStep (fun r hr => (h r hr).1) 0
  · simpa using foldl_profitStep (fun r hr => ⟨(h r hr).1, (h r hr).2.1⟩) 0
  · exact specVol_split (fun r hr => (h r hr).2.2)

/-- The example bid rows of the specification. -/
def w6rows : List JSVal :=
  [JSVal.arr [JSVal.str ("2021-07-22"), JSVal.num 0, JSVal.str ("SELL"),
    JSVal.num 10, JSVal.num 50],
   JSVal.arr [JSVal.str ("2021-07-22"), JSVal.num 1, JSVal.str ("BUY"),
    JSVal.num 5, JSVal.num 40]]

/-- Witness for claim C6 at the specification's example rows: `profit =
300`, `volumeSold = 10`, `volumeBrought = 5`, `totalVolume = 15`, with
the bid list in row order. -/
theorem C6_bid_invariants_witness :
    (ProcessBids w6rows).profit = JSVal.num 300 ∧
    (ProcessBids w6rows).volumeSold = JSVal.num 10 ∧
    (ProcessBids w6rows).volumeBrought = JSVal.num 5 ∧
    (ProcessBids w6rows).totalVolume = JSVal.num 15 ∧
    (ProcessBids w6rows).bids = w6rows.map mkBid := by
  have ht : ∀ r ∈ w6rows, bidRowTyped r := by
    intro r hr
    simp only [w6rows, List.mem_cons, List.not_mem_nil, or_false] at hr
    rcases hr with rfl | rfl
    · exact ⟨⟨10, rfl⟩, ⟨50, rfl⟩, Or.inl rfl⟩
    · exact ⟨⟨5, rfl⟩, ⟨40, rfl⟩, Or.inr rfl⟩
  obtain ⟨hb, htv, hvs, hvb, hp, -⟩ := C6_bid_invariants w6rows ht
  refine ⟨?_, ?_, ?_, ?_, hb⟩
  · rw [hp]
    norm_num [specProfit, rowVolQ, rowPriceQ, w6rows, isSellVal, JSVal.idx, List.getD,
      (by decide : ¬ ("BUY" : String) = "SELL")]
  · rw [hvs]
    norm_num [specSold, rowVolQ, w6rows, isSellVal, JSVal.idx, List.getD,
      (by decide : ¬ ("BUY" : String) = "SELL")]
  · rw [hvb]
    norm_num [specBrought, rowVolQ, w6rows, isBuyVal, JSVal.idx, List.getD,
      (by decide : ¬ ("SELL" : String) = "BUY")]
  · rw [htv]
    norm_num [specVol, rowVolQ, w6rows, JSVal.idx, List.getD]


/-! ### Claim C5: the two-tier null policy of `ProcessEnergy` -/

/-- Claim C5: for every processed energy row with numeric predicted
fields and number-or-null real fields, `predictedTotal` is the sum of
predicted solar and wind, `predictedNet` subtracts demand, `realTotal`
is null exactly when real solar or real wind is null, `realNet` is null
exactly when `realTotal` is null or real demand is null, and in the
all-numeric case `realTotal = solar + wind` and
`realNet = realTotal - demand`. -/
theorem C5_energy_null_policy (cr : List (String × JSVal)) (rows : List JSVal)
    (i : ℕ) (r : JSVal) (hr : rows[i]? = some r)
    (p1 p2 p3 : ℚ)
    (h1 : r.idx 1 = JSVal.num p1) (h2 : r.idx 2 = JSVal.num p2)
    (h3 : r.idx 3 = JSVal.num p3)
    (h4 : r.idx 4 = JSVal.null ∨ ∃ q : ℚ, r.idx 4 = JSVal.num q)
    (h5 : r.idx 5 = JSVal.null ∨ ∃ q : ℚ, r.idx 5 = JSVal.num q)
    (h6 : r.idx 6 = JSVal.null ∨ ∃ q : ℚ, r.idx 6 = JSVal.num q) :
    (((ProcessEnergy cr rows).predictedTotalGeneration)[i]? =
      some (JSVal.num (p2 + p3))) ∧
    (((ProcessEnergy cr rows).predictedNetGeneration)[i]? =
      some (JSVal.num (p2 + p3 - p1))) ∧
    (((ProcessEnergy cr rows).realTotalGeneration)[i]? = some JSVal.null ↔
      (r.idx 5 = JSVal.null ∨ r.idx 6 = JSVal.null)) ∧
    (((ProcessEnergy cr rows).realNetGeneration)[i]? = some JSVal.null ↔
      (((ProcessEnergy cr rows).realTotalGeneration)[i]? = some JSVal.null ∨
        r.idx 4 = JSVal.null)) ∧
    (∀ a b : ℚ, r.idx 5 = JSVal.num a → r.idx 6 = JSVal.num b →
      ((ProcessEnergy cr rows).realTotalGeneration)[i]? =
        some (JSVal.num (a + b))) ∧
    (∀ a b d : ℚ, r.idx 5 = JSVal.num a → r.idx 6 = JSVal.num b →
      r.idx 4 = JSVal.num d →
      ((ProcessEnergy cr rows).realNetGeneration)[i]? =
        some (JSVal.num (a + b - d))) := by
  have hpt : ((ProcessEnergy cr rows).predictedTotalGeneration)[i]? =
      some (rowPredTotal r) := by
    simp [ProcessEnergy, List.getElem?_map, hr]
  have hpn : ((ProcessEnergy cr rows).predictedNetGeneration)[i]? =
      some (rowPredNet r) := by
    simp [ProcessEnergy, List.getElem?_map, hr]
  have hrt : ((ProcessEnergy cr rows).realTotalGeneration)[i]? =
      some (rowRealTotal r) := by
    simp [ProcessEnergy, List.getElem?_map, hr]
  have hrn : ((ProcessEnergy cr rows).realNetGeneration)[i]? =
      some (rowRealNet r) := by
    simp [ProcessEnergy, List.getElem?_map, hr]
  refine ⟨?_, ?_, ?_, ?_, ?_, ?_⟩
  · rw [hpt, rowPredTotal, h2, h3, jsAdd_num_num]
  · rw [hpn, rowPredNet, h1, h2, h3, jsAdd_num_num, jsSub_num_num]
  · rw [hrt]
    rcases h5 with h5 | ⟨a, h5⟩ <;> rcases h6 with h6 | ⟨b, h6⟩ <;>
      simp [rowRealTotal, h5, h6, JSVal.looseNull, jsAdd_num_num]
  · rw [hrn, hrt]
    rcases h5 with h5 | ⟨a, h5⟩ <;> rcases h6 with h6 | ⟨b, h6⟩ <;>
      rcases h4 with h4 | ⟨d, h4⟩ <;>
      simp [rowRealNet, rowRealTotal, h4, h5, h6, JSVal.looseNull, JSVal.isNull,
        jsAdd_num_num, jsSub_num_num]
  · intro a b ha hb
    rw [hrt]
    simp [rowRealTotal, ha, hb, JSVal.looseNull, jsAdd_num_num]
  · intro a b d ha hb hd
    rw [hrn]
    simp [rowRealNet, ha, hb, hd, JSVal.looseNull, JSVal.isNull,
      jsAdd_num_num, jsSub_num_num]

/-- The specification's example energy row and carbon-rate mapping. -/
def w5row : JSVal :=
  JSVal.arr [JSVal.str ("2021-07-22 00:00:00+00:00"), JSVal.num 100,
    JSVal.num 40, JSVal.num 60, JSVal.null, JSVal.num 35, JSVal.num 55]

/-- Witness for claim C5 at the specification's example row (with
`carbonRate = {"2021-07-22": 0.2}`): `predictedTotal = 100`,
`predictedNet = 0`, `realTotal = 90`, `realNet = null`. -/
theorem C5_energy_null_policy_witness :
    (((ProcessEnergy [("2021-07-22", JSVal.num (1 / 5))] [w5row]).predictedTotalGeneration)[0]? =
      some (JSVal.num 100)) ∧
    (((ProcessEnergy [("2021-07-22", JSVal.num (1 / 5))] [w5row]).predictedNetGeneration)[0]? =
      some (JSVal.num 0)) ∧
    (((ProcessEnergy [("2021-07-22", JSVal.num (1 / 5))] [w5row]).realTotalGeneration)[0]? =
      some (JSVal.num 90)) ∧
    (((ProcessEnergy [("2021-07-22", JSVal.num (1 / 5))] [w5row]).realNetGeneration)[0]? =
      some JSVal.null) := by
  obtain ⟨hpt, hpn, -, hrn, hrt9, -⟩ :=
    C5_energy_null_policy [("2021-07-22", JSVal.num (1 / 5))] [w5row] 0 w5row rfl
      100 40 60 rfl rfl rfl (Or.inl rfl) (Or.inr ⟨35, rfl⟩) (Or.inr ⟨55, rfl⟩)
  refine ⟨?_, ?_, ?_, ?_⟩
  · rw [(by norm_num : (100 : ℚ) = 40 + 60)]
    exact hpt
  · rw [(by norm_num : (0 : ℚ) = 40 + 60 - 100)]
    exact hpn
  · rw [(by norm_num : (90 : ℚ) = 35 + 55)]
    exact hrt9 35 55 rfl rfl
  · exact hrn.mpr (Or.inr rfl)


/-! ### Claim C9: NaN contamination from the unguarded rate lookup -/

theorem foldl_predCO2_nan (cr : List (String × JSVal)) :
    ∀ rows : List JSVal, rows.foldl (predCO2Step cr) JSVal.nan = JSVal.nan := by
  intro rows
  induction rows with
  | nil => rfl
  | cons r rs ih =>
    rw [List.foldl_cons, predCO2Step, jsAdd_nan_left (jsMul_numOrNan _ _), ih]

theorem foldl_predCO2_infect (cr : List (String × JSVal)) :
    ∀ (rows : List JSVal) (a : JSVal), numOrNan a →
      (∃ r ∈ rows, rowRate cr r = JSVal.undef) →
      rows.foldl (predCO2Step cr) a = JSVal.nan := by
  intro rows
  induction rows with
  | nil =>
    rintro a ha ⟨r, hr, -⟩
    exact absurd hr (List.not_mem_nil r)
  | cons r rs ih =>
    rintro a ha ⟨x, hx, hxr⟩
    rw [List.foldl_cons]
    rcases List.mem_cons.mp hx with rfl | hx2
    · rw [predCO2Step, hxr, jsMul_undef_right, jsAdd_nan_right ha]
      exact foldl_predCO2_nan cr rs
    · exact ih _ (jsAdd_numOrNan ha (jsMul_numOrNan _ _)) ⟨x, hx2, hxr⟩

theorem foldl_realCO2_nan (cr : List (String × JSVal)) :
    ∀ rows : List JSVal, rows.foldl (realCO2Step cr) JSVal.nan = JSVal.nan := by
  intro rows
  induction rows with
  | nil => rfl
  | cons r rs ih =>
    rw [List.foldl_cons]
    by_cases hac : rowRealActive r = true
    · rw [realCO2Step, if_pos hac, jsAdd_nan_left (jsMul_numOrNan _ _), ih]
    · rw [realCO2Step, if_neg hac, ih]

theorem realCO2Step_numOrNan (cr : List (String × JSVal)) {a : JSVal}
    (ha : numOrNan a) (r : JSVal) : numOrNan (realCO2Step cr a r) := by
  by_cases hac : rowRealActive r = true
  · rw [realCO2Step, if_pos hac]
    exact jsAdd_numOrNan ha (jsMul_numOrNan _ _)
  · rw [realCO2Step, if_neg hac]
    exact ha

theorem foldl_realCO2_infect (cr : List (String × JSVal)) :
    ∀ (rows : List JSVal) (a : JSVal), numOrNan a →
      (∃ r ∈ rows, rowRate cr r = JSVal.undef ∧ rowRealActive r = true) →
      rows.foldl (realCO2Step cr) a = JSVal.nan := by
  intro rows
  induction rows with
  | nil =>
    rintro a ha ⟨r, hr, -⟩
    exact absurd hr (List.not_mem_nil r)
  | cons r rs ih =>
    rintro a ha ⟨x, hx, hxr, hxa⟩
    rw [List.foldl_cons]
    rcases List.mem_cons.mp hx with rfl | hx2
    · rw [realCO2Step, if_pos hxa]
      have hmul : jsMul (jsSub (jsAdd (x.idx 5) (x.idx 6)) (x.idx 4)) (rowRate cr x) =
          JSVal.nan := by
        rw [hxr, jsMul_undef_right]
      rw [hmul, jsAdd_nan_right ha]
      exact foldl_realCO2_nan cr rs
    · exact ih _ (realCO2Step_numOrNan cr ha r) ⟨x, hx2, hxr, hxa⟩

/-- Claim C9: in `ProcessEnergy` the rate-defaults-to-`0` path applies
exactly to rows whose timestamp is not a string; a string timestamp
whose ten-character day key is absent from `carbonRate` makes the
unguarded lookup yield `undefined` (not `0`), so that row's
`predictedNet · rate` term is NaN and the `predictedCarbonSaved`
accumulator ends as NaN (likewise `realCarbonSaved` whenever the row
reaches the real-net accumulation) — and such payloads do pass
`ValidateResponse`. -/
theorem C9_missing_rate_key_poisons_carbon (cr : List (String × JSVal))
    (rows : List JSVal) (r : JSVal) (t : String) (hmem : r ∈ rows)
    (ht : r.idx 0 = JSVal.str t)
    (habs : crGet cr (jsSlice t 0 10) = JSVal.undef)
    (_hval : ValidateResponse (JSVal.obj [("data", JSVal.arr rows),
      ("carbonRate", JSVal.obj cr)]) APIResponse.energy = true) :
    rowRate cr r = JSVal.undef ∧
    (∀ r' : JSVal, (∀ u : String, r'.idx 0 ≠ JSVal.str u) →
      rowRate cr r' = JSVal.num 0) ∧
    (ProcessEnergy cr rows).predictedCarbonSaved = JSVal.nan ∧
    (rowRealActive r = true →
      (ProcessEnergy cr rows).realCarbonSaved = JSVal.nan) := by
  have hrate : rowRate cr r = JSVal.undef := by
    rw [rowRate, ht]
    exact habs
  refine ⟨hrate, ?_, ?_, ?_⟩
  · intro r2 hr2
    rcases h0 : r2.idx 0 with q | _ | u | b | _ | _ | xs | fs <;>
      simp [rowRate, h0]
    exact absurd h0 (hr2 u)
  · exact foldl_predCO2_infect cr rows (JSVal.num 0) (numOrNan_num 0)
      ⟨r, hmem, hrate⟩
  · intro hact
    exact foldl_realCO2_infect cr rows (JSVal.num 0) (numOrNan_num 0)
      ⟨r, hmem, hrate, hact⟩

/-- The witness row for claim C9: a validated energy payload whose
timestamp day (`2021-07-23`) is missing from the carbon-rate mapping. -/
def w9row : JSVal :=
  JSVal.arr [JSVal.str ("2021-07-23 00:00:00+00:00"), JSVal.num 1,
    JSVal.num 2, JSVal.num 3, JSVal.num 1, JSVal.num 1, JSVal.num 1]

/-- Witness for claim C9: the concrete payload passes `ValidateResponse`
and both carbon accumulators come out NaN. -/
theorem C9_missing_rate_key_poisons_carbon_witness :
    ValidateResponse (JSVal.obj [("data", JSVal.arr [w9row]),
      ("carbonRate", JSVal.obj [("2021-07-22", JSVal.num 1)])])
      APIResponse.energy = true ∧
    crGet [("2021-07-22", JSVal.num 1)]
      (jsSlice ("2021-07-23 00:00:00+00:00") 0 10) = JSVal.undef ∧
    (ProcessEnergy [("2021-07-22", JSVal.num 1)] [w9row]).predictedCarbonSaved =
      JSVal.nan ∧
    (ProcessEnergy [("2021-07-22", JSVal.num 1)] [w9row]).realCarbonSaved =
      JSVal.nan := by
  obtain ⟨-, -, hpred, hreal⟩ :=
    C9_missing_rate_key_poisons_carbon [("2021-07-22", JSVal.num 1)] [w9row]
      w9row ("2021-07-23 00:00:00+00:00") (List.mem_cons_self w9row [])
      rfl rfl rfl
  exact ⟨rfl, rfl, hpred, hreal rfl⟩


/-! ### Claim C4: date resolution — exact match or highest day number -/

/-- The integer day number of a catalog day (meaningful under the
all-numeric hypothesis). -/
def dayValZ (d : ReportDay) : ℤ := d.day.getD 0

theorem scanDays_exact (target : String) :
    ∀ (days : List ReportDay) (latest : Option ReportDay),
      (∃ d ∈ days, d.date = target) →
      ∃ dres, scanDays target days latest = (some dres, true) ∧
        dres.date = target ∧ dres ∈ days := by
  intro days
  induction days with
  | nil =>
    rintro latest ⟨d, hd, -⟩
    exact absurd hd (List.not_mem_nil d)
  | cons d rest ih =>
    rintro latest ⟨x, hx, hxt⟩
    by_cases hd : d.date = target
    · exact ⟨d, by simp [scanDays, hd], hd, List.mem_cons_self d rest⟩
    · have hx2 : x ∈ rest := by
        rcases List.mem_cons.mp hx with rfl | hx2
        · exact absurd hxt hd
        · exact hx2
      obtain ⟨dres, hscan, hdt, hdm⟩ := ih _ ⟨x, hx2, hxt⟩
      refine ⟨dres, ?_, hdt, List.mem_cons_of_mem d hdm⟩
      simp only [scanDays, if_neg hd]
      exact hscan

theorem dayGT_some {a b : Option ℤ} {x y : ℤ} (ha : a = some x)
    (hb : b = some y) : dayGT a b = decide (y < x) := by
  subst ha; subst hb; rfl

theorem scanDays_fallback (target : String) :
    ∀ (days : List ReportDay) (cur : ReportDay),
      (∀ d ∈ days, d.date ≠ target) →
      (∀ d ∈ days, ∃ n : ℤ, d.day = some n) →
      (∃ nc : ℤ, cur.day = some nc) →
      ∃ dres, scanDays target days (some cur) = (some dres, false) ∧
        dres ∈ cur :: days ∧ dayValZ cur ≤ dayValZ dres ∧
        ∀ d ∈ days, dayValZ d ≤ dayValZ dres := by
  intro days
  induction days with
  | nil =>
    intro cur _ _ _
    exact ⟨cur, rfl, List.mem_cons_self cur [], le_refl _, by simp⟩
  | cons d rest ih =>
    intro cur hne hnum hcur
    obtain ⟨nc, hnc⟩ := hcur
    obtain ⟨nd, hnd⟩ := hnum d (List.mem_cons_self d rest)
    have hdnt := hne d (List.mem_cons_self d rest)
    have hne2 : ∀ x ∈ rest, x.date ≠ target :=
      fun x hx => hne x (List.mem_cons_of_mem d hx)
    have hnum2 : ∀ x ∈ rest, ∃ n : ℤ, x.day = some n :=
      fun x hx => hnum x (List.mem_cons_of_mem d hx)
    by_cases hgt : dayGT d.day cur.day = true
    · obtain ⟨dres, hscan, hdm, hcb, hrb⟩ := ih d hne2 hnum2 ⟨nd, hnd⟩
      have hstep : scanDays target (d :: rest) (some cur) =
          scanDays target rest (some d) := by
        simp only [scanDays, Option.isNone_some, Bool.false_eq_true, if_false,
          if_neg hdnt, hgt, if_true]
      have hlt : nc < nd := by
        rw [dayGT_some hnd hnc] at hgt
        simpa using hgt
      refine ⟨dres, by rw [hstep]; exact hscan, ?_, ?_, ?_⟩
      · rcases List.mem_cons.mp hdm with rfl | hdm2
        · exact List.mem_cons_of_mem cur (List.mem_cons_self dres rest)
        · exact List.mem_cons_of_mem cur (List.mem_cons_of_mem d hdm2)
      · have : dayValZ cur ≤ dayValZ d := by
          simp only [dayValZ, hnd, hnc, Option.getD_some]
          omega
        exact le_trans this hcb
      · intro x hx
        rcases List.mem_cons.mp hx with rfl | hx2
        · exact hcb
        · exact hrb x hx2
    · obtain ⟨dres, hscan, hdm, hcb, hrb⟩ := ih cur hne2 hnum2 ⟨nc, hnc⟩
      have hstep : scanDays target (d :: rest) (some cur) =
          scanDays target rest (some cur) := by
        simp only [scanDays, Option.isNone_some, Bool.false_eq_true, if_false,
          if_neg hdnt, hgt]
      have hle : nd ≤ nc := by
        rw [dayGT_some hnd hnc] at hgt
        simpa using hgt
      refine ⟨dres, by rw [hstep]; exact hscan, ?_, hcb, ?_⟩
      · rcases List.mem_cons.mp hdm with rfl | hdm2
        · exact List.mem_cons_self dres (d :: rest)
        · exact List.mem_cons_of_mem cur (List.mem_cons_of_mem d hdm2)
      · intro x hx
        rcases List.mem_cons.mp hx with rfl | hx2
        · have : dayValZ x ≤ dayValZ cur := by
            simp only [dayValZ, hnd, hnc, Option.getD_some]
            omega
          exact le_trans this hcb
        · exact hrb x hx2

theorem scanDays_fallback_top (target : String) (days : List ReportDay)
    (hne : ∀ d ∈ days, d.date ≠ target)
    (hnum : ∀ d ∈ days, ∃ n : ℤ, d.day = some n)
    (hd0 : days ≠ []) :
    ∃ dres, scanDays target days none = (some dres, false) ∧
      dres ∈ days ∧ ∀ d ∈ days, dayValZ d ≤ dayValZ dres := by
  cases days with
  | nil => exact absurd rfl hd0
  | cons d rest =>
    have hstep : scanDays target (d :: rest) none =
        scanDays target rest (some d) := by
      simp only [scanDays, Option.isNone_none, if_true,
        if_neg (hne d (List.mem_cons_self d rest)), ite_self]
    obtain ⟨dres, hscan, hdm, -, hrb⟩ := scanDays_fallback target rest d
      (fun x hx => hne x (List.mem_cons_of_mem d hx))
      (fun x hx => hnum x (List.mem_cons_of_mem d hx))
      (hnum d (List.mem_cons_self d rest))
    refine ⟨dres, by rw [hstep]; exact hscan, hdm, ?_⟩
    intro x hx
    rcases List.mem_cons.mp hx with rfl | hx2
    · obtain ⟨dres2, hscan2, hdm2, hcb2, hrb2⟩ := scanDays_fallback target rest x
        (fun y hy => hne y (List.mem_cons_of_mem x hy))
        (fun y hy => hnum y (List.mem_cons_of_mem x hy))
        (hnum x (List.mem_cons_self x rest))
      rw [hscan] at hscan2
      cases hscan2
      exact hcb2
    · exact hrb x hx2

/-- Claim C4: in day mode, once the resolver has located the (first)
month whose `date` equals the target's year-month key and that month's
days carry numeric day numbers: if some day's date string equals the
target the resolver stops there and returns it as the exact match;
otherwise it returns a day of the month whose `day` number is maximal
(not the day closest to the target). -/
theorem C4_resolver_exact_or_max_day (months : List ReportMonth)
    (target : String) (m : ReportMonth)
    (hfind : months.find? (fun m2 => m2.date = ymKey target) = some m)
    (hnum : ∀ d ∈ m.days, ∃ n : ℤ, d.day = some n) :
    ((∃ d ∈ m.days, d.date = target) →
      ∃ dres, resolveDate months target DateType.day = (some (Sum.inr dres), true) ∧
        dres.date = target ∧ dres ∈ m.days) ∧
    ((∀ d ∈ m.days, d.date ≠ target) → m.days ≠ [] →
      ∃ dres, resolveDate months target DateType.day = (some (Sum.inr dres), false) ∧
        dres ∈ m.days ∧ ∀ d ∈ m.days, dayValZ d ≤ dayValZ dres) := by
  constructor
  · intro hex
    obtain ⟨dres, hscan, hdt, hdm⟩ := scanDays_exact target m.days none hex
    refine ⟨dres, ?_, hdt, hdm⟩
    rw [resolveDate, hfind]
    simp only [if_neg (by decide : ¬ DateType.day = DateType.month), hscan]
  · intro hne hd0
    obtain ⟨dres, hscan, hdm, hmax⟩ := scanDays_fallback_top target m.days hne hnum hd0
    refine ⟨dres, ?_, hdm, hmax⟩
    rw [resolveDate, hfind]
    simp only [if_neg (by decide : ¬ DateType.day = DateType.month), hscan]

/-- The witness catalog of claim C4: month `2021-07` with days 5 and
20. -/
def w4month : ReportMonth :=
  ⟨[⟨"2021-07-05", some 5⟩, ⟨"2021-07-20", some 20⟩],
    some 7, some 2021, "2021-07", JSVal.str ("July")⟩

/-- Witness for claim C4: with days `[5, 20]` and target `2021-07-10`
(no exact match) the resolver returns day 20, the highest day number,
not day 5, the numerically closest one. -/
theorem C4_resolver_exact_or_max_day_witness :
    [w4month].find? (fun m2 => m2.date = ymKey ("2021-07-10")) = some w4month ∧
    resolveDate [w4month] ("2021-07-10") DateType.day =
      (some (Sum.inr ⟨"2021-07-20", some 20⟩), false) ∧
    (∃ dres, resolveDate [w4month] ("2021-07-10") DateType.day =
      (some (Sum.inr dres), false) ∧ dres ∈ w4month.days ∧
      ∀ d ∈ w4month.days, dayValZ d ≤ dayValZ dres) := by
  refine ⟨rfl, rfl, ?_⟩
  refine (C4_resolver_exact_or_max_day [w4month] ("2021-07-10") w4month rfl ?_).2 ?_ ?_
  · intro d hd
    simp only [w4month, List.mem_cons, List.not_mem_nil, or_false] at hd
    rcases hd with rfl | rfl
    · exact ⟨5, rfl⟩
    · exact ⟨20, rfl⟩
  · intro d hd
    simp only [w4month, List.mem_cons, List.not_mem_nil, or_false] at hd
    rcases hd with rfl | rfl <;> decide
  · decide


/-! ### Claim C7: `ProcessDates` synthesis -/

theorem jsToStr_natCast (n : ℕ) :
    JSVal.jsToStr (JSVal.num (n : ℚ)) = String.mk (natChars n) := by
  have hden : (n : ℚ).den = 1 := Rat.den_natCast n
  have hnum : (n : ℚ).num = (n : ℤ) := Rat.num_natCast n
  simp only [JSVal.jsToStr, hden, hnum, if_true]
  rw [if_neg (by omega : ¬ (n : ℤ) < 0), Int.natAbs_ofNat]

theorem padStart2_natChars {n : ℕ} (h : n < 100) :
    padStart2 (natChars n) = [digitChar (n / 10), digitChar (n % 10)] := by
  rcases Nat.lt_or_ge n 10 with h10 | h10
  · rcases Nat.eq_zero_or_pos n with rfl | hpos
    · decide
    · rw [natChars_of_lt_ten hpos h10,
        (by omega : n / 10 = 0), (by omega : n % 10 = n)]
      simp only [padStart2, List.length_cons, List.length_nil]
      norm_num
      rfl
  · rw [natChars_of_lt_hundred h10 h]
    simp [padStart2]

theorem toList_mk (l : List Char) : (String.mk l).toList = l := rfl

/-- Claim C7: `ProcessDates` emits one `ReportMonth` per mapping entry,
in the mapping's own entry order; for a well-formed `YYYY-MM` key the
month's `year`/`month` come from splitting the key on `-`, its `name`
is the fixed twelve-entry table at index `month - 1`, and each day
value `n` yields a `ReportDay` with date `key ++ "-" ++` the two-digit
zero-padded rendering of `n` and numeric day `n`. -/
theorem C7_process_dates (data : List (String × List JSVal)) :
    (ProcessDates data).length = data.length ∧
    ∀ (i : ℕ) (key : String) (days : List JSVal),
      data[i]? = some (key, days) →
      ∀ (y m : List Char), splitSep '-' key.toList = [y, m] →
        y ≠ [] → y.all Char.isDigit = true →
        m ≠ [] → m.all Char.isDigit = true →
        1 ≤ decVal m → decVal m ≤ 12 →
        ∃ month, (ProcessDates data)[i]? = some month ∧
          month.date = key ∧
          month.year = some ((decVal y : ℕ) : ℤ) ∧
          month.month = some ((decVal m : ℕ) : ℤ) ∧
          month.name = JSVal.str (MonthNames.getD (decVal m - 1) "") ∧
          month.days.length = days.length ∧
          ∀ (j n : ℕ), days[j]? = some (JSVal.num (n : ℚ)) → n < 100 →
            (month.days)[j]? = some
              ⟨key ++ "-" ++ String.mk [digitChar (n / 10), digitChar (n % 10)],
               some ((n : ℕ) : ℤ)⟩ := by
  constructor
  · simp [ProcessDates]
  · intro i key days hi y m hsplit hy hyd hm hmd hm1 hm12
    refine ⟨mkReportMonth key days, ?_, rfl, ?_, ?_, ?_,
      (by
        show (days.map (mkReportDay key)).length = days.length
        simp [List.length_map]), ?_⟩
    · simp [ProcessDates, List.getElem?_map, hi]
    · show jsParseInt ((splitSep '-' key.toList).getD 0 []) = _
      rw [hsplit]
      simp only [List.getD_cons_zero]
      exact jsParseInt_digits hy hyd
    · show jsParseInt ((splitSep '-' key.toList).getD 1 []) = _
      rw [hsplit]
      simp only [List.getD_cons_succ, List.getD_cons_zero]
      exact jsParseInt_digits hm hmd
    · show monthNameAt (jsParseInt ((splitSep '-' key.toList).getD 1 [])) = _
      rw [hsplit]
      simp only [List.getD_cons_succ, List.getD_cons_zero]
      rw [jsParseInt_digits hm hmd]
      revert hm1 hm12
      generalize decVal m = k
      intro hm1 hm12
      interval_cases k <;> rfl
    · intro j n hj hn
      show ((days.map (mkReportDay key))[j]?) = _
      rw [List.getElem?_map, hj]
      simp only [Option.map_some']
      congr 1
      rw [mkReportDay]
      simp only [ReportDay.mk.injEq]
      constructor
      · rw [jsToStr_natCast, toList_mk, padStart2_natChars hn]
      · rw [jsParseIntVal, jsToStr_natCast, toList_mk, jsParseInt_natChars]

/-- The witness mapping of claim C7: keys deliberately not in
chronological order. -/
def w7data : List (String × List JSVal) :=
  [("2021-07", [JSVal.num 5, JSVal.num 20]), ("2021-01", [JSVal.num 3])]

/-- Witness for claim C7 at the two-entry mapping `{"2021-07": [5, 20],
"2021-01": [3]}`: two months in entry order (July before January), and
the July entry carries year 2021, month 7, name `"July"`, and days
`2021-07-05` and `2021-07-20`. -/
theorem C7_process_dates_witness :
    (ProcessDates w7data).length = 2 ∧
    ((ProcessDates w7data)[0]?).map ReportMonth.date = some ("2021-07") ∧
    ((ProcessDates w7data)[1]?).map ReportMonth.date = some ("2021-01") ∧
    (∃ month, (ProcessDates w7data)[0]? = some month ∧
      month.date = "2021-07" ∧
      month.year = some ((decVal ("2021".toList) : ℕ) : ℤ) ∧
      month.month = some ((decVal ("07".toList) : ℕ) : ℤ) ∧
      month.name = JSVal.str (MonthNames.getD (decVal ("07".toList) - 1) "") ∧
      month.days.length = 2 ∧
      ∀ (j n : ℕ), ([JSVal.num 5, JSVal.num 20] : List JSVal)[j]? =
          some (JSVal.num (n : ℚ)) → n < 100 →
        (month.days)[j]? = some
          ⟨"2021-07" ++ "-" ++ String.mk [digitChar (n / 10), digitChar (n % 10)],
           some ((n : ℕ) : ℤ)⟩) := by
  refine ⟨rfl, rfl, rfl, ?_⟩
  exact (C7_process_dates w7data).2 0 ("2021-07") [JSVal.num 5, JSVal.num 20] rfl
    ("2021".toList) ("07".toList) (by decide) (by decide) (by decide)
    (by decide) (by decide) (by decide) (by decide)


/-! ### Claim C3: the date-syntax check and rejection behaviour -/

theorem validateDate_of_parts2 {date : String} {y m : List Char}
    (hsp : splitSep '-' date.toList = [y, m])
    (hy : y.length = 4) (hm2 : m.length = 2)
    (hmd : m.all Char.isDigit = true) (hm12 : decVal m ≤ 12) :
    ValidateDate date = true := by
  have hlen : date.toList.length = 7 := by
    have := splitSep_lengths hsp
    simp only [List.map_cons, List.map_nil, List.sum_cons, List.sum_nil,
      List.length_cons, List.length_nil, hy, hm2] at this
    omega
  have hmne : m ≠ [] := by
    intro h0
    rw [h0] at hm2
    simp at hm2
  have hgt : jsGTnum (jsStringToNumber m) 12 = false := by
    rw [jsStringToNumber_digits hmne hmd, jsGTnum]
    simp only [decide_eq_false_iff_not, not_lt]
    exact_mod_cast hm12
  simp only [ValidateDate, hsp, hlen]
  norm_num [hy, hm2, hgt]

theorem validateDate_of_parts3 {date : String} {y m d : List Char}
    (hsp : splitSep '-' date.toList = [y, m, d])
    (hy : y.length = 4) (hm2 : m.length = 2) (hd2 : d.length = 2)
    (hmd : m.all Char.isDigit = true) (hdd : d.all Char.isDigit = true)
    (hm12 : decVal m ≤ 12) (hd31 : decVal d ≤ 31) :
    ValidateDate date = true := by
  have hlen : date.toList.length = 10 := by
    have := splitSep_lengths hsp
    simp only [List.map_cons, List.map_nil, List.sum_cons, List.sum_nil,
      List.length_cons, List.length_nil, hy, hm2, hd2] at this
    omega
  have hmne : m ≠ [] := by
    intro h0
    rw [h0] at hm2
    simp at hm2
  have hdne : d ≠ [] := by
    intro h0
    rw [h0] at hd2
    simp at hd2
  have hgt : jsGTnum (jsStringToNumber m) 12 = false := by
    rw [jsStringToNumber_digits hmne hmd, jsGTnum]
    simp only [decide_eq_false_iff_not, not_lt]
    exact_mod_cast hm12
  have hgtd : jsGTnum (jsStringToNumber d) 31 = false := by
    rw [jsStringToNumber_digits hdne hdd, jsGTnum]
    simp only [decide_eq_false_iff_not, not_lt]
    exact_mod_cast hd31
  simp only [ValidateDate, hsp, hlen]
  norm_num [hy, hm2, hd2, hgt, hgtd]

/-- Claim C3 is false as an "if and only if": `ValidateDate` accepts
`"2021-00"` (month `00`, outside `1..12`) and `"2021-ab"` (`+"ab"` is
NaN, and `NaN > 12` is false), neither of which has the specified
shape; and `ChangeDate("2021-00")` does mutate the page state and does
issue both fetches. -/
theorem C3_counterexample :
    ValidateDate ("2021-00") = true ∧
    specDateShape ("2021-00") = false ∧
    ValidateDate ("2021-ab") = true ∧
    specDateShape ("2021-ab") = false ∧
    (ChangeDate ("2021-00") ⟨"2021-07-22", DateType.day, false, false, 0,
      SkeletonState.visible, SkeletonState.visible, none, none⟩).1.pageDate =
      "2021-00" ∧
    (ChangeDate ("2021-00") ⟨"2021-07-22", DateType.day, false, false, 0,
      SkeletonState.visible, SkeletonState.visible, none, none⟩).2 =
      [FetchReq.energy ("2021-00"), FetchReq.bids ("2021-00")] := by
  exact ⟨by decide, by decide, by decide, by decide, rfl, rfl⟩

/-- Claim C3 (amended): every string of the specified `YYYY-MM` /
`YYYY-MM-DD` digit shape with month `1..12` and day `1..31` is accepted
by `ValidateDate` (the acceptance is strictly wider — see the
counterexample — because the check only constrains part lengths and the
numeric coercions' upper bounds, with NaN passing); and every string
`ValidateDate` rejects makes `ChangeDate` return immediately with the
page state unchanged and no fetch issued. -/
theorem C3_date_syntax_and_rejection :
    (∀ date : String, specDateShape date = true → ValidateDate date = true) ∧
    (∀ (date : String) (s : PageState), ValidateDate date = false →
      ChangeDate date s = (s, [])) := by
  constructor
  · intro date h
    unfold specDateShape at h
    rcases hsp : splitSep '-' date.toList with - | ⟨y, tl⟩
    · rw [hsp] at h
      simp at h
    rcases tl with - | ⟨m, tl2⟩
    · rw [hsp] at h
      simp at h
    rcases tl2 with - | ⟨d, tl3⟩
    · rw [hsp] at h
      simp only [decide_eq_true_eq] at h
      obtain ⟨h1, h2, h3, h4, h5, h6⟩ := h
      exact validateDate_of_parts2 hsp h1 h3 h4 h6
    rcases tl3 with - | ⟨e, tl4⟩
    · rw [hsp] at h
      simp only [decide_eq_true_eq] at h
      obtain ⟨h1, h2, h3, h4, h5, h6, h7, h8, h9, h10⟩ := h
      exact validateDate_of_parts3 hsp h1 h3 h7 h4 h8 h6 h10
    · rw [hsp] at h
      simp at h
  · intro date s h
    simp [ChangeDate, h]

/-- Witness for the amended claim C3: `"2021-07-22"` has the specified
shape and is accepted; `"2021-13"` is rejected and `ChangeDate` on it
leaves the state untouched and issues no fetch. -/
theorem C3_date_syntax_and_rejection_witness :
    specDateShape ("2021-07-22") = true ∧
    ValidateDate ("2021-07-22") = true ∧
    ValidateDate ("2021-13") = false ∧
    ChangeDate ("2021-13") ⟨"2021-07-22", DateType.day, false, false, 0,
      SkeletonState.visible, SkeletonState.visible, none, none⟩ =
      (⟨"2021-07-22", DateType.day, false, false, 0,
        SkeletonState.visible, SkeletonState.visible, none, none⟩, []) :=
  ⟨by decide,
   C3_date_syntax_and_rejection.1 ("2021-07-22") (by decide),
   by decide,
   C3_date_syntax_and_rejection.2 ("2021-13")
     ⟨"2021-07-22", DateType.day, false, false, 0,
       SkeletonState.visible, SkeletonState.visible, none, none⟩ (by decide)⟩

end Dashboard